import Mathlib

/-! # google-gke-client: cluster lifecycle client

A shallow embedding of `client/gke.go`, `utils/utils.go` and `main.go`.

* The remote control plane is a parameter: a `Service σ` gives, for every
  endpoint the program uses, the response and the next remote state.  Nothing
  is assumed about it.
* Every function returns what it returned, the remote state it left behind and
  the list of effects it emitted, in order: network calls, log lines, sleeps
  and file removals.
* The readiness loops `for { ... }` have no exit but `return`; they are
  embedded with a fuel argument that bounds the number of iterations, and an
  exhausted fuel is reported as `Outcome.polling`, never as a return.
* A run-time panic (an index out of range, a nil dereference) is the outcome
  `Outcome.panicked`, not a returned error.
-/

namespace GKE

/-! ## Go values -/

/-- Non-nil Go `error` value, identified by the text its `Error()` method gives.
A Go `error` result is an `Option Error`, `none` being `nil`. -/
structure Error where
  msg : String
deriving DecidableEq, Repr

namespace fmt

/-- Call `fmt.Errorf(format)` with no further argument and no verb in `format`. -/
def Errorf (format : String) : Error := ⟨format⟩

end fmt

namespace strings

/-- Whether `sub` occurs in `s` as a contiguous block, on character lists. -/
def containsChars : List Char → List Char → Bool
  | [], sub => sub.isEmpty
  | c :: cs, sub => sub.isPrefixOf (c :: cs) || containsChars cs sub

/-- Library function `strings.Contains(s, substr)`. -/
def Contains (s substr : String) : Bool := containsChars s.data substr.data

end strings

/-! ## The types of `google.golang.org/api/container/v1` the program touches

Only the fields the program reads or writes are kept.  A Go pointer field is an
`Option`, and a slice of pointers such as `NodePools []*NodePool` is a list of
`Option`s. -/

namespace gke

structure Operation where
  HTTPStatusCode : Int
deriving DecidableEq, Repr

structure NodeConfig where
  MachineType : String
deriving DecidableEq, Repr

structure NodePool where
  Name : String
  Status : String
deriving DecidableEq, Repr

structure HttpLoadBalancing where
  Disabled : Bool
deriving DecidableEq, Repr

structure HorizontalPodAutoscaling where
  Disabled : Bool
deriving DecidableEq, Repr

structure KubernetesDashboard where
  Disabled : Bool
deriving DecidableEq, Repr

structure NetworkPolicyConfig where
  Disabled : Bool
deriving DecidableEq, Repr

structure AddonsConfig where
  HttpLoadBalancing : Option gke.HttpLoadBalancing
  HorizontalPodAutoscaling : Option gke.HorizontalPodAutoscaling
  KubernetesDashboard : Option gke.KubernetesDashboard
  NetworkPolicyConfig : Option gke.NetworkPolicyConfig
deriving DecidableEq, Repr

structure LegacyAbac where
  Enabled : Bool
deriving DecidableEq, Repr

structure MasterAuth where
  Username : String
deriving DecidableEq, Repr

structure Cluster where
  Name : String
  Zone : String
  InitialClusterVersion : String
  InitialNodeCount : Int
  ClusterIpv4Cidr : String
  Description : String
  EnableKubernetesAlpha : Bool
  AddonsConfig : Option gke.AddonsConfig
  Network : String
  Subnetwork : String
  LegacyAbac : Option gke.LegacyAbac
  MasterAuth : Option gke.MasterAuth
  NodeConfig : Option gke.NodeConfig
  Status : String
  NodePools : List (Option gke.NodePool)
deriving DecidableEq, Repr

/-- Zero value `gke.Cluster{}`. -/
def Cluster.zero : Cluster :=
  { Name := "", Zone := "", InitialClusterVersion := "", InitialNodeCount := 0,
    ClusterIpv4Cidr := "", Description := "", EnableKubernetesAlpha := false,
    AddonsConfig := none, Network := "", Subnetwork := "", LegacyAbac := none,
    MasterAuth := none, NodeConfig := none, Status := "", NodePools := [] }

structure CreateClusterRequest where
  Cluster : Option gke.Cluster
deriving DecidableEq, Repr

structure ClusterUpdate where
  DesiredMasterVersion : String
deriving DecidableEq, Repr

structure UpdateClusterRequest where
  Update : Option gke.ClusterUpdate
deriving DecidableEq, Repr

structure UpdateNodePoolRequest where
  NodeVersion : String
deriving DecidableEq, Repr

structure SetNodePoolSizeRequest where
  NodeCount : Int
deriving DecidableEq, Repr

end gke

namespace cluster

/-- Record `GKECluster`, field for field as `main.go` declares it (the package
`cluster` that `client` and `utils` take it from declares the same record). -/
structure GKECluster where
  ProjectID : String
  Zone : String
  ClusterIpv4Cidr : String
  Description : String
  NodeCount : Int
  MasterVersion : String
  MasterAuth : Option gke.MasterAuth
  NodeVersion : String
  Name : String
  NodeConfig : Option gke.NodeConfig
  CredentialPath : String
  CredentialContent : String
  TempCredentialPath : String
  EnableAlphaFeature : Bool
  HTTPLoadBalancing : Bool
  HorizontalPodAutoscaling : Bool
  KubernetesDashboard : Bool
  NetworkPolicyConfig : Bool
  Locations : List String
  Network : String
  SubNetwork : String
  LegacyAbac : Bool
  NodePoolID : String
deriving DecidableEq, Repr

/-- Zero value `GKECluster{}`. -/
def GKECluster.zero : GKECluster :=
  { ProjectID := "", Zone := "", ClusterIpv4Cidr := "", Description := "",
    NodeCount := 0, MasterVersion := "", MasterAuth := none, NodeVersion := "",
    Name := "", NodeConfig := none, CredentialPath := "", CredentialContent := "",
    TempCredentialPath := "", EnableAlphaFeature := false, HTTPLoadBalancing := false,
    HorizontalPodAutoscaling := false, KubernetesDashboard := false,
    NetworkPolicyConfig := false, Locations := [], Network := "", SubNetwork := "",
    LegacyAbac := false, NodePoolID := "" }

end cluster

open cluster (GKECluster)

/-! ## Effects -/

/-- Request sent to the control plane: the endpoint and the arguments of the call. -/
inductive Call where
  | ClustersCreate (projectId zone : String) (req : gke.CreateClusterRequest)
  | ClustersGet (projectId zone clusterId : String)
  | ClustersUpdate (projectId zone clusterId : String) (req : gke.UpdateClusterRequest)
  | ClustersDelete (projectId zone clusterId : String)
  | NodePoolsGet (projectId zone clusterId nodePoolId : String)
  | NodePoolsUpdate (projectId zone clusterId nodePoolId : String)
      (req : gke.UpdateNodePoolRequest)
  | NodePoolsSetSize (projectId zone clusterId nodePoolId : String)
      (req : gke.SetNodePoolSizeRequest)
deriving DecidableEq, Repr

/-- Argument handed to a `Printf`, kept unformatted. -/
inductive Arg where
  | str (s : String)
  | lower (s : String)
  | int (i : Int)
  | err (e : Error)
  | req (r : gke.CreateClusterRequest)
deriving DecidableEq, Repr

/-- Effect the program has on the outside, in the order of the trace. -/
inductive Event where
  | call (c : Call)
  | log (format : String) (args : List Arg)
  | print (format : String) (args : List Arg)
  | sleep (seconds : Nat)
  | removeAll (path : String)
deriving DecidableEq, Repr

/-- The network calls of a trace, in order. -/
def calls : List Event → List Call
  | [] => []
  | Event.call c :: es => c :: calls es
  | _ :: es => calls es

/-- The log lines of a trace, in order. -/
def logs : List Event → List (String × List Arg)
  | [] => []
  | Event.log f as :: es => (f, as) :: logs es
  | _ :: es => logs es

/-- The two run-time panics the program can raise. -/
inductive Panic where
  | indexOutOfRange
  | nilDereference
deriving DecidableEq, Repr

/-- How an execution ended. -/
inductive Outcome where
  | returned (err : Option Error)
  | panicked (why : Panic)
  | polling
deriving DecidableEq, Repr

/-- Control plane as the program sees it: each endpoint maps its arguments and the
remote state to the response of `.Do()` and the next remote state. -/
structure Service (σ : Type) where
  ClustersCreate : String → String → gke.CreateClusterRequest → σ →
    Except Error gke.Operation × σ
  ClustersGet : String → String → String → σ → Except Error gke.Cluster × σ
  ClustersUpdate : String → String → String → gke.UpdateClusterRequest → σ →
    Except Error gke.Operation × σ
  ClustersDelete : String → String → String → σ → Except Error gke.Operation × σ
  NodePoolsGet : String → String → String → String → σ → Except Error gke.NodePool × σ
  NodePoolsUpdate : String → String → String → String → gke.UpdateNodePoolRequest → σ →
    Except Error gke.Operation × σ
  NodePoolsSetSize : String → String → String → String → gke.SetNodePoolSizeRequest → σ →
    Except Error gke.Operation × σ

/-- Result of running a function of the client against a remote state. -/
structure Run (σ : Type) where
  out : Outcome
  remote : σ
  trace : List Event

/-- Prefix a run with the effects emitted before it. -/
def Run.after {σ : Type} (pre : List Event) (r : Run σ) : Run σ :=
  { out := r.out, remote := r.remote, trace := pre ++ r.trace }

/-! ## `utils/utils.go` -/

namespace utils

def statusRunning : String := "RUNNING"

/-- Loop of `WaitForCluster` (lines 21-35), entered with the current value of the
local `message`; `fuel` bounds the number of iterations. -/
def WaitForClusterLoop {σ : Type} (svc : Service σ) (cc : GKECluster) :
    Nat → String → σ → Run σ
  | 0, _, s => { out := Outcome.polling, remote := s, trace := [] }
  | fuel + 1, message, s =>
    let get := Event.call (Call.ClustersGet cc.ProjectID cc.Zone cc.Name)
    match svc.ClustersGet cc.ProjectID cc.Zone cc.Name s with
    | (Except.error err, s1) =>
      { out := Outcome.returned (some err), remote := s1, trace := [get] }
    | (Except.ok cluster, s1) =>
      if cluster.Status = statusRunning then
        { out := Outcome.returned none, remote := s1,
          trace := [get, Event.log "Cluster %v is running" [Arg.str cc.Name]] }
      else if cluster.Status ≠ message then
        (WaitForClusterLoop svc cc fuel cluster.Status s1).after
          [get, Event.log "%v cluster %v" [Arg.str cluster.Status, Arg.str cc.Name],
           Event.sleep 5]
      else
        (WaitForClusterLoop svc cc fuel message s1).after [get, Event.sleep 5]

/-- Function `WaitForCluster` (lines 19-36): `message := ""`, then the loop. -/
def WaitForCluster {σ : Type} (svc : Service σ) (cc : GKECluster) (fuel : Nat) (s : σ) :
    Run σ :=
  WaitForClusterLoop svc cc fuel "" s

/-- Loop of `WaitForNodePool` (lines 40-54). -/
def WaitForNodePoolLoop {σ : Type} (svc : Service σ) (cc : GKECluster) :
    Nat → String → σ → Run σ
  | 0, _, s => { out := Outcome.polling, remote := s, trace := [] }
  | fuel + 1, message, s =>
    let get := Event.call (Call.NodePoolsGet cc.ProjectID cc.Zone cc.Name cc.NodePoolID)
    match svc.NodePoolsGet cc.ProjectID cc.Zone cc.Name cc.NodePoolID s with
    | (Except.error err, s1) =>
      { out := Outcome.returned (some err), remote := s1, trace := [get] }
    | (Except.ok nodepool, s1) =>
      if nodepool.Status = statusRunning then
        { out := Outcome.returned none, remote := s1,
          trace := [get, Event.log "Nodepool %v is running" [Arg.str cc.Name]] }
      else if nodepool.Status ≠ message then
        (WaitForNodePoolLoop svc cc fuel nodepool.Status s1).after
          [get, Event.log "%v nodepool %v" [Arg.str nodepool.Status, Arg.str cc.NodePoolID],
           Event.sleep 5]
      else
        (WaitForNodePoolLoop svc cc fuel message s1).after [get, Event.sleep 5]

/-- Function `WaitForNodePool` (lines 38-55). -/
def WaitForNodePool {σ : Type} (svc : Service σ) (cc : GKECluster) (fuel : Nat) (s : σ) :
    Run σ :=
  WaitForNodePoolLoop svc cc fuel "" s

/-- Function `Validate` (lines 57-66).  It takes the spec by pointer, so the result
carries the spec as the call leaves it next to the returned error. -/
def Validate (cc : GKECluster) : Option Error × GKECluster :=
  if cc.ProjectID = "" then
    (some (fmt.Errorf "project ID is required"), cc)
  else if cc.Zone = "" then
    (some (fmt.Errorf "zone is required"), cc)
  else if cc.Name = "" then
    (some (fmt.Errorf "cluster name is required"), cc)
  else
    (none, cc)

/-- Function `GenerateClusterCreateRequest` (lines 68-95). -/
def GenerateClusterCreateRequest (cc : GKECluster) : gke.CreateClusterRequest :=
  { Cluster := some
      { gke.Cluster.zero with
        Name := cc.Name
        Zone := cc.Zone
        InitialClusterVersion := cc.MasterVersion
        InitialNodeCount := cc.NodeCount
        ClusterIpv4Cidr := cc.ClusterIpv4Cidr
        Description := cc.Description
        EnableKubernetesAlpha := cc.EnableAlphaFeature
        AddonsConfig := some
          { HttpLoadBalancing := some { Disabled := !cc.HTTPLoadBalancing }
            HorizontalPodAutoscaling := some { Disabled := !cc.HorizontalPodAutoscaling }
            KubernetesDashboard := some { Disabled := !cc.KubernetesDashboard }
            NetworkPolicyConfig := some { Disabled := !cc.NetworkPolicyConfig } }
        Network := cc.Network
        Subnetwork := cc.SubNetwork
        LegacyAbac := some { Enabled := cc.LegacyAbac }
        MasterAuth := some { Username := "admin" }
        NodeConfig := cc.NodeConfig } }

end utils

/-! ## `client/gke.go` -/

namespace client

/-- Function `CreateCluster` (lines 62-80).  The call `cc.validate()` of line 64 is
commented out in the source and so has no counterpart here. -/
def CreateCluster {σ : Type} (svc : Service σ) (cc : GKECluster) (fuel : Nat) (s : σ) :
    Run σ :=
  let req := utils.GenerateClusterCreateRequest cc
  let pre := [Event.log "Cluster request: %v" [Arg.req req],
              Event.call (Call.ClustersCreate cc.ProjectID cc.Zone req),
              Event.print "Cluster request submitted: %v" [Arg.req req]]
  match svc.ClustersCreate cc.ProjectID cc.Zone req s with
  | (Except.error err, s1) =>
    if !strings.Contains err.msg "alreadyExists" then
      { out := Outcome.returned (some err), remote := s1,
        trace := pre ++ [Event.log "Contains error" [Arg.err err]] }
    else
      (utils.WaitForCluster svc cc fuel s1).after pre
  | (Except.ok createCall, s1) =>
    (utils.WaitForCluster svc cc fuel s1).after
      (pre ++ [Event.log
        "Cluster %s create is called for project %s and zone %s. Status Code %v"
        [Arg.str cc.Name, Arg.str cc.ProjectID, Arg.str cc.Zone,
         Arg.int createCall.HTTPStatusCode]])

/-- Wrapper `if err := wait(...); err != nil { log.Printf("Contains error", err);
return err }` of lines 105-108, 121-124 and 136-139: a failed wait logs and returns,
a successful one goes on with `next`. -/
def afterWait {σ : Type} (w : Run σ) (next : σ → Run σ) : Run σ :=
  match w.out with
  | Outcome.returned none => (next w.remote).after w.trace
  | Outcome.returned (some err) =>
    { out := Outcome.returned (some err), remote := w.remote,
      trace := w.trace ++ [Event.log "Contains error" [Arg.err err]] }
  | Outcome.panicked _ => w
  | Outcome.polling => w

/-- Block of `UpdateCluster` for the node count (lines 127-141). -/
def UpdateClusterNodeCount {σ : Type} (svc : Service σ) (cc : GKECluster) (fuel : Nat)
    (s : σ) : Run σ :=
  if cc.NodeCount ≠ 0 then
    let pre := [Event.log "Updating node size to %v" [Arg.int cc.NodeCount],
                Event.call (Call.NodePoolsSetSize cc.ProjectID cc.Zone cc.Name cc.NodePoolID
                  { NodeCount := cc.NodeCount })]
    match svc.NodePoolsSetSize cc.ProjectID cc.Zone cc.Name cc.NodePoolID
        { NodeCount := cc.NodeCount } s with
    | (Except.error err, s1) =>
      { out := Outcome.returned (some err), remote := s1, trace := pre }
    | (Except.ok updateCall, s1) =>
      (afterWait (utils.WaitForCluster svc cc fuel s1)
        (fun s2 => { out := Outcome.returned none, remote := s2, trace := [] })).after
        (pre ++ [Event.log
          "Nodepool %s size change is called for project %s, zone %s and cluster %s. Status Code %v"
          [Arg.str cc.NodePoolID, Arg.str cc.ProjectID, Arg.str cc.Zone, Arg.str cc.Name,
           Arg.int updateCall.HTTPStatusCode]])
  else
    { out := Outcome.returned none, remote := s, trace := [] }

/-- Block of `UpdateCluster` for the node version (lines 111-125), followed by the
node-count block. -/
def UpdateClusterNodeVersion {σ : Type} (svc : Service σ) (cc : GKECluster) (fuel : Nat)
    (s : σ) : Run σ :=
  if cc.NodeVersion ≠ "" then
    let pre := [Event.log "Updating node to %v verison" [Arg.str cc.NodeVersion],
                Event.call (Call.NodePoolsUpdate cc.ProjectID cc.Zone cc.Name cc.NodePoolID
                  { NodeVersion := cc.NodeVersion })]
    match svc.NodePoolsUpdate cc.ProjectID cc.Zone cc.Name cc.NodePoolID
        { NodeVersion := cc.NodeVersion } s with
    | (Except.error err, s1) =>
      { out := Outcome.returned (some err), remote := s1,
        trace := pre ++ [Event.log "Contains error" [Arg.err err]] }
    | (Except.ok updateCall, s1) =>
      (afterWait (utils.WaitForNodePool svc cc fuel s1)
        (UpdateClusterNodeCount svc cc fuel)).after
        (pre ++ [Event.log
          "Nodepool %s update is called for project %s, zone %s and cluster %s. Status Code %v"
          [Arg.str cc.NodePoolID, Arg.str cc.ProjectID, Arg.str cc.Zone, Arg.str cc.Name,
           Arg.int updateCall.HTTPStatusCode]])
  else
    UpdateClusterNodeCount svc cc fuel s

/-- Block of `UpdateCluster` for the master version (lines 94-109), followed by the
node-version block. -/
def UpdateClusterMaster {σ : Type} (svc : Service σ) (cc : GKECluster) (fuel : Nat)
    (s : σ) : Run σ :=
  if cc.MasterVersion ≠ "" then
    let pre := [Event.log "Updating master to %v version" [Arg.str cc.MasterVersion],
                Event.call (Call.ClustersUpdate cc.ProjectID cc.Zone cc.Name
                  { Update := some { DesiredMasterVersion := cc.MasterVersion } })]
    match svc.ClustersUpdate cc.ProjectID cc.Zone cc.Name
        { Update := some { DesiredMasterVersion := cc.MasterVersion } } s with
    | (Except.error err, s1) =>
      { out := Outcome.returned (some err), remote := s1, trace := pre }
    | (Except.ok updateCall, s1) =>
      (afterWait (utils.WaitForCluster svc cc fuel s1)
        (UpdateClusterNodeVersion svc cc fuel)).after
        (pre ++ [Event.log
          "Cluster %s update is called for project %s and zone %s. Status Code %v"
          [Arg.str cc.Name, Arg.str cc.ProjectID, Arg.str cc.Zone,
           Arg.int updateCall.HTTPStatusCode]])
  else
    UpdateClusterNodeVersion svc cc fuel s

/-- What the block of lines 85-92 leaves: the function has ended, or it goes on with
the spec as the block left it. -/
inductive Resolved where
  | ended (out : Outcome)
  | goesOn (cc : GKECluster)
deriving DecidableEq, Repr

/-- Block of `UpdateCluster` that resolves the node pool (lines 85-92).  In
`cluster.NodePools[0].Name` the index panics on an empty slice, and the field
access panics on a nil first element. -/
def UpdateClusterResolve {σ : Type} (svc : Service σ) (cc : GKECluster) (s : σ) :
    Resolved × σ × List Event :=
  if cc.NodePoolID = "" then
    let get := Event.call (Call.ClustersGet cc.ProjectID cc.Zone cc.Name)
    match svc.ClustersGet cc.ProjectID cc.Zone cc.Name s with
    | (Except.error err, s1) =>
      (Resolved.ended (Outcome.returned (some err)), s1,
       [get, Event.log "Contains error" [Arg.err err]])
    | (Except.ok cluster, s1) =>
      match cluster.NodePools with
      | [] => (Resolved.ended (Outcome.panicked Panic.indexOutOfRange), s1, [get])
      | none :: _ => (Resolved.ended (Outcome.panicked Panic.nilDereference), s1, [get])
      | some first :: _ => (Resolved.goesOn { cc with NodePoolID := first.Name }, s1, [get])
  else
    (Resolved.goesOn cc, s, [])

/-- Function `UpdateCluster` (lines 82-142): the log line of line 84, the block that
resolves the node pool, then the three update blocks. -/
def UpdateCluster {σ : Type} (svc : Service σ) (cc : GKECluster) (fuel : Nat) (s : σ) :
    Run σ :=
  let hello := Event.log "Updating cluster. MasterVersion: %s, NodeVersion: %s, NodeCount: %v"
    [Arg.str cc.MasterVersion, Arg.str cc.NodeVersion, Arg.int cc.NodeCount]
  match UpdateClusterResolve svc cc s with
  | (Resolved.ended out, s1, t) => { out := out, remote := s1, trace := hello :: t }
  | (Resolved.goesOn cc1, s1, t) => (UpdateClusterMaster svc cc1 fuel s1).after (hello :: t)

/-- Function `DeleteCluster` (lines 144-157).  `osRemoveAll` is `os.RemoveAll` on a
file system of type `φ`: the error it returns and the file system it leaves. -/
def DeleteCluster {σ φ : Type} (svc : Service σ) (osRemoveAll : String → φ → Option Error × φ)
    (cc : GKECluster) (s : σ) (fs : φ) : Run σ × φ :=
  let pre := [Event.log "Removing cluster %v from project %v, zone %v"
                [Arg.str cc.Name, Arg.str cc.ProjectID, Arg.str cc.Zone],
              Event.call (Call.ClustersDelete cc.ProjectID cc.Zone cc.Name)]
  match svc.ClustersDelete cc.ProjectID cc.Zone cc.Name s with
  | (Except.error err, s1) =>
    if !strings.Contains err.msg "notFound" then
      ({ out := Outcome.returned (some err), remote := s1, trace := pre }, fs)
    else
      ({ out := Outcome.returned none, remote := s1,
         trace := pre ++ [Event.log "Cluster %s doesn't exist" [Arg.str cc.Name],
                          Event.removeAll cc.TempCredentialPath] },
       (osRemoveAll cc.TempCredentialPath fs).2)
  | (Except.ok deleteCall, s1) =>
    ({ out := Outcome.returned none, remote := s1,
       trace := pre ++ [Event.log "Cluster %v delete is called. Status Code %v"
                          [Arg.str cc.Name, Arg.int deleteCall.HTTPStatusCode],
                        Event.removeAll cc.TempCredentialPath] },
     (osRemoveAll cc.TempCredentialPath fs).2)

end client

/-! ## `main.go`

The methods of `*GKECluster`.  A method that assigns to its receiver returns the
receiver as it leaves it. -/

namespace main

def statusRunning : String := "RUNNING"

/-- Method `validate` (lines 208-217). -/
def validate (cc : GKECluster) : Option Error × GKECluster :=
  if cc.ProjectID = "" then
    (some (fmt.Errorf "project ID is required"), cc)
  else if cc.Zone = "" then
    (some (fmt.Errorf "zone is required"), cc)
  else if cc.Name = "" then
    (some (fmt.Errorf "cluster name is required"), cc)
  else
    (none, cc)

/-- Method `generateClusterCreateRequest` (lines 219-246). -/
def generateClusterCreateRequest (cc : GKECluster) : gke.CreateClusterRequest :=
  { Cluster := some
      { gke.Cluster.zero with
        Name := cc.Name
        Zone := cc.Zone
        InitialClusterVersion := cc.MasterVersion
        InitialNodeCount := cc.NodeCount
        ClusterIpv4Cidr := cc.ClusterIpv4Cidr
        Description := cc.Description
        EnableKubernetesAlpha := cc.EnableAlphaFeature
        AddonsConfig := some
          { HttpLoadBalancing := some { Disabled := !cc.HTTPLoadBalancing }
            HorizontalPodAutoscaling := some { Disabled := !cc.HorizontalPodAutoscaling }
            KubernetesDashboard := some { Disabled := !cc.KubernetesDashboard }
            NetworkPolicyConfig := some { Disabled := !cc.NetworkPolicyConfig } }
        Network := cc.Network
        Subnetwork := cc.SubNetwork
        LegacyAbac := some { Enabled := cc.LegacyAbac }
        MasterAuth := some { Username := "admin" }
        NodeConfig := cc.NodeConfig } }

/-- Loop of the method `waitForCluster` (lines 191-205).  The status is logged
through `strings.ToLower`, recorded as `Arg.lower`. -/
def waitForClusterLoop {σ : Type} (svc : Service σ) (cc : GKECluster) :
    Nat → String → σ → Run σ
  | 0, _, s => { out := Outcome.polling, remote := s, trace := [] }
  | fuel + 1, message, s =>
    let get := Event.call (Call.ClustersGet cc.ProjectID cc.Zone cc.Name)
    match svc.ClustersGet cc.ProjectID cc.Zone cc.Name s with
    | (Except.error err, s1) =>
      { out := Outcome.returned (some err), remote := s1, trace := [get] }
    | (Except.ok cluster, s1) =>
      if cluster.Status = statusRunning then
        { out := Outcome.returned none, remote := s1,
          trace := [get, Event.log "Cluster %v is running" [Arg.str cc.Name]] }
      else if cluster.Status ≠ message then
        (waitForClusterLoop svc cc fuel cluster.Status s1).after
          [get, Event.log "%v cluster %v......" [Arg.lower cluster.Status, Arg.str cc.Name],
           Event.sleep 5]
      else
        (waitForClusterLoop svc cc fuel message s1).after [get, Event.sleep 5]

/-- Method `waitForCluster` (lines 189-206). -/
def waitForCluster {σ : Type} (svc : Service σ) (cc : GKECluster) (fuel : Nat) (s : σ) :
    Run σ :=
  waitForClusterLoop svc cc fuel "" s

/-- Method `CreateCluster` (lines 149-169).  Line 153 calls `cc.validate()` as a
statement: the error it returns is dropped. -/
def CreateCluster {σ : Type} (svc : Service σ) (cc0 : GKECluster) (projectID zone : String)
    (fuel : Nat) (s : σ) : Run σ × GKECluster :=
  let cc1 := { cc0 with ProjectID := projectID, Zone := zone }
  let cc := (validate cc1).2
  let req := generateClusterCreateRequest cc
  let pre := [Event.print "Cluster request: %v" [Arg.req req],
              Event.call (Call.ClustersCreate cc.ProjectID cc.Zone req),
              Event.print "Cluster request submitted: %v" [Arg.req req]]
  match svc.ClustersCreate cc.ProjectID cc.Zone req s with
  | (Except.error err, s1) =>
    if !strings.Contains err.msg "alreadyExists" then
      ({ out := Outcome.returned (some err), remote := s1,
         trace := pre ++ [Event.log "Contains error" [Arg.err err]] }, cc)
    else
      ((waitForCluster svc cc fuel s1).after pre, cc)
  | (Except.ok createCall, s1) =>
    ((waitForCluster svc cc fuel s1).after
      (pre ++ [Event.log
        "Cluster %s create is called for project %s and zone %s. Status Code %v"
        [Arg.str cc.Name, Arg.str cc.ProjectID, Arg.str cc.Zone,
         Arg.int createCall.HTTPStatusCode]]), cc)

end main

/-! ## A scripted control plane

The remote state is one queue of canned responses per endpoint; a call takes the
head of its queue.  This is the double a test of the client would use; an empty
queue answers with an error. -/

structure Script where
  creates : List (Except Error gke.Operation)
  clusterGets : List (Except Error gke.Cluster)
  clusterUpdates : List (Except Error gke.Operation)
  deletes : List (Except Error gke.Operation)
  nodePoolGets : List (Except Error gke.NodePool)
  nodePoolUpdates : List (Except Error gke.Operation)
  setSizes : List (Except Error gke.Operation)

/-- The script with all queues empty. -/
def Script.empty : Script :=
  { creates := [], clusterGets := [], clusterUpdates := [], deletes := [],
    nodePoolGets := [], nodePoolUpdates := [], setSizes := [] }

/-- Head of a queue of responses and the rest of it. -/
def Script.pop {α : Type} : List (Except Error α) → Except Error α × List (Except Error α)
  | [] => (Except.error ⟨"script exhausted"⟩, [])
  | r :: rest => (r, rest)

/-- The control plane that replays a script. -/
def scripted : Service Script where
  ClustersCreate _ _ _ s :=
    ((Script.pop s.creates).1, { s with creates := (Script.pop s.creates).2 })
  ClustersGet _ _ _ s :=
    ((Script.pop s.clusterGets).1, { s with clusterGets := (Script.pop s.clusterGets).2 })
  ClustersUpdate _ _ _ _ s :=
    ((Script.pop s.clusterUpdates).1,
     { s with clusterUpdates := (Script.pop s.clusterUpdates).2 })
  ClustersDelete _ _ _ s :=
    ((Script.pop s.deletes).1, { s with deletes := (Script.pop s.deletes).2 })
  NodePoolsGet _ _ _ _ s :=
    ((Script.pop s.nodePoolGets).1, { s with nodePoolGets := (Script.pop s.nodePoolGets).2 })
  NodePoolsUpdate _ _ _ _ _ s :=
    ((Script.pop s.nodePoolUpdates).1,
     { s with nodePoolUpdates := (Script.pop s.nodePoolUpdates).2 })
  NodePoolsSetSize _ _ _ _ _ s :=
    ((Script.pop s.setSizes).1, { s with setSizes := (Script.pop s.setSizes).2 })

/-- A cluster as a `Get` reports it: its status and its node pools. -/
def clusterWith (status : String) (pools : List (Option gke.NodePool)) : gke.Cluster :=
  { gke.Cluster.zero with Status := status, NodePools := pools }

/-- The paths handed to `os.RemoveAll` in a trace, in order. -/
def removals : List Event → List String
  | [] => []
  | Event.removeAll path :: es => path :: removals es
  | _ :: es => removals es

/-- A spec with project and zone but no name. -/
def specNoName : GKECluster :=
  { GKECluster.zero with ProjectID := "p", Zone := "z" }

/-- A control plane that accepts the create request and reports a running cluster. -/
def readyScript : Script :=
  { Script.empty with
    creates := [Except.ok { HTTPStatusCode := 200 }]
    clusterGets := [Except.ok (clusterWith "RUNNING" [])] }

/-- Whether a scripted fetch result, an error or a status, ends the poll. -/
def fetchStops : Except Error String → Bool
  | Except.error _ => true
  | Except.ok status => decide (status = "RUNNING")

/-- The error of a scripted fetch result, nil for a status. -/
def fetchError : Except Error String → Option Error
  | Except.error err => some err
  | Except.ok _ => none

/-- A scripted fetch result as the response of a cluster `Get`. -/
def asCluster : Except Error String → Except Error gke.Cluster
  | Except.error err => Except.error err
  | Except.ok status => Except.ok (clusterWith status [])

/-- A scripted fetch result as the response of a node-pool `Get`. -/
def asNodePool (name : String) : Except Error String → Except Error gke.NodePool
  | Except.error err => Except.error err
  | Except.ok status => Except.ok { Name := name, Status := status }

/-! ## The update as the specification words it

"Performs up to three independent update calls, each only if its triggering field
is set ... Each sub-update is fatal on error; on success it ... waits for
convergence before proceeding to the next." -/

/-- The three sub-updates, in the order master version, node version, node count. -/
inductive UpdateStep where
  | master
  | nodeVersion
  | nodeCount
deriving DecidableEq, Repr

/-- The sub-updates whose triggering field is set, in order. -/
def plannedSteps (cc : GKECluster) : List UpdateStep :=
  (if cc.MasterVersion ≠ "" then [UpdateStep.master] else []) ++
    ((if cc.NodeVersion ≠ "" then [UpdateStep.nodeVersion] else []) ++
      (if cc.NodeCount ≠ 0 then [UpdateStep.nodeCount] else []))

/-- The request of a sub-update. -/
def stepCall (cc : GKECluster) : UpdateStep → Call
  | UpdateStep.master =>
    Call.ClustersUpdate cc.ProjectID cc.Zone cc.Name
      { Update := some { DesiredMasterVersion := cc.MasterVersion } }
  | UpdateStep.nodeVersion =>
    Call.NodePoolsUpdate cc.ProjectID cc.Zone cc.Name cc.NodePoolID
      { NodeVersion := cc.NodeVersion }
  | UpdateStep.nodeCount =>
    Call.NodePoolsSetSize cc.ProjectID cc.Zone cc.Name cc.NodePoolID
      { NodeCount := cc.NodeCount }

/-- The response of the control plane to the request of a sub-update. -/
def stepSend {σ : Type} (svc : Service σ) (cc : GKECluster) :
    UpdateStep → σ → Except Error gke.Operation × σ
  | UpdateStep.master =>
    svc.ClustersUpdate cc.ProjectID cc.Zone cc.Name
      { Update := some { DesiredMasterVersion := cc.MasterVersion } }
  | UpdateStep.nodeVersion =>
    svc.NodePoolsUpdate cc.ProjectID cc.Zone cc.Name cc.NodePoolID
      { NodeVersion := cc.NodeVersion }
  | UpdateStep.nodeCount =>
    svc.NodePoolsSetSize cc.ProjectID cc.Zone cc.Name cc.NodePoolID
      { NodeCount := cc.NodeCount }

/-- The status a fetch of the cluster reports, or the error of the fetch. -/
def fetchClusterStatus {σ : Type} (svc : Service σ) (cc : GKECluster) (s : σ) :
    Except Error String × σ :=
  match svc.ClustersGet cc.ProjectID cc.Zone cc.Name s with
  | (Except.error err, s1) => (Except.error err, s1)
  | (Except.ok cluster, s1) => (Except.ok cluster.Status, s1)

/-- The status a fetch of the node pool of the spec reports, or the error of the
fetch. -/
def fetchNodePoolStatus {σ : Type} (svc : Service σ) (cc : GKECluster) (s : σ) :
    Except Error String × σ :=
  match svc.NodePoolsGet cc.ProjectID cc.Zone cc.Name cc.NodePoolID s with
  | (Except.error err, s1) => (Except.error err, s1)
  | (Except.ok nodepool, s1) => (Except.ok nodepool.Status, s1)

/-- The readiness poller as the specification words it: "repeatedly fetch the
resource's status field"; status "RUNNING", return success; any fetch error "aborts
the loop and is surfaced immediately"; any other status, retry.  `get` is the
request of one fetch and `fuel` bounds the number of fetches. -/
def specPoll {σ : Type} (fetch : σ → Except Error String × σ) (get : Call) :
    Nat → σ → Outcome × σ × List Call
  | 0, s => (Outcome.polling, s, [])
  | fuel + 1, s =>
    match fetch s with
    | (Except.error err, s1) => (Outcome.returned (some err), s1, [get])
    | (Except.ok status, s1) =>
      if status = "RUNNING" then (Outcome.returned none, s1, [get])
      else
        ((specPoll fetch get fuel s1).1, (specPoll fetch get fuel s1).2.1,
         get :: (specPoll fetch get fuel s1).2.2)

/-- The readiness poll that follows a sub-update: of the cluster, of the node pool,
of the cluster. -/
def stepPoll {σ : Type} (svc : Service σ) (cc : GKECluster) (fuel : Nat) :
    UpdateStep → σ → Outcome × σ × List Call
  | UpdateStep.master =>
    specPoll (fetchClusterStatus svc cc) (Call.ClustersGet cc.ProjectID cc.Zone cc.Name) fuel
  | UpdateStep.nodeVersion =>
    specPoll (fetchNodePoolStatus svc cc)
      (Call.NodePoolsGet cc.ProjectID cc.Zone cc.Name cc.NodePoolID) fuel
  | UpdateStep.nodeCount =>
    specPoll (fetchClusterStatus svc cc) (Call.ClustersGet cc.ProjectID cc.Zone cc.Name) fuel

/-- The steps one after the other: send the request, and if it fails end with its
error; poll, and if the poll does not return nil end with what it gave; otherwise go
on with the next step.  The result is the outcome, the remote state and the calls
made. -/
def runSteps {σ : Type} (svc : Service σ) (cc : GKECluster) (fuel : Nat) :
    List UpdateStep → σ → Outcome × σ × List Call
  | [], s => (Outcome.returned none, s, [])
  | st :: rest, s =>
    match stepSend svc cc st s with
    | (Except.error err, s1) => (Outcome.returned (some err), s1, [stepCall cc st])
    | (Except.ok _, s1) =>
      match (stepPoll svc cc fuel st s1).1 with
      | Outcome.returned none =>
        ((runSteps svc cc fuel rest (stepPoll svc cc fuel st s1).2.1).1,
         (runSteps svc cc fuel rest (stepPoll svc cc fuel st s1).2.1).2.1,
         stepCall cc st :: ((stepPoll svc cc fuel st s1).2.2 ++
           (runSteps svc cc fuel rest (stepPoll svc cc fuel st s1).2.1).2.2))
      | other =>
        (other, (stepPoll svc cc fuel st s1).2.1,
         stepCall cc st :: (stepPoll svc cc fuel st s1).2.2)

/-- What a run shows of itself to the control plane and to the caller: the outcome,
the remote state and the calls. -/
def Run.view {σ : Type} (r : Run σ) : Outcome × σ × List Call :=
  (r.out, r.remote, calls r.trace)

/-- Whether a call is one of the three update requests. -/
def isUpdateCall : Call → Bool
  | Call.ClustersUpdate _ _ _ _ => true
  | Call.NodePoolsUpdate _ _ _ _ _ => true
  | Call.NodePoolsSetSize _ _ _ _ _ => true
  | _ => false

/-- The node pool a call is addressed to, if it is a node-pool call. -/
def poolOf : Call → Option String
  | Call.NodePoolsGet _ _ _ nodePoolId => some nodePoolId
  | Call.NodePoolsUpdate _ _ _ nodePoolId _ => some nodePoolId
  | Call.NodePoolsSetSize _ _ _ nodePoolId _ => some nodePoolId
  | _ => none

/-- A spec that names no node pool and asks for a new node version. -/
def upgradeSpec : GKECluster :=
  { GKECluster.zero with ProjectID := "p", Zone := "z", Name := "c", NodeVersion := "1.9.2" }

/-- A control plane whose cluster has the node pools "default-pool" and "extra",
and that accepts the node-pool update and reports a running node pool. -/
def upgradeScript : Script :=
  { Script.empty with
    clusterGets := [Except.ok (clusterWith "RUNNING"
      [some { Name := "default-pool", Status := "RUNNING" },
       some { Name := "extra", Status := "RUNNING" }])]
    nodePoolUpdates := [Except.ok { HTTPStatusCode := 200 }]
    nodePoolGets := [Except.ok { Name := "default-pool", Status := "RUNNING" }] }

/-- A control plane whose cluster is running and has no node pool. -/
def noPoolScript : Script :=
  { Script.empty with clusterGets := [Except.ok (clusterWith "RUNNING" [])] }

/-- A spec that names no node pool and asks for no update at all. -/
def idleSpec : GKECluster :=
  { GKECluster.zero with ProjectID := "p", Zone := "z", Name := "c" }

/-- A control plane whose cluster reports one node pool, and that one nil. -/
def nilPoolScript : Script :=
  { Script.empty with
    clusterGets := [Except.ok (clusterWith "RUNNING" [none])]
    nodePoolUpdates := [Except.ok { HTTPStatusCode := 200 }]
    nodePoolGets := [Except.ok { Name := "default-pool", Status := "RUNNING" }] }

/-- A spec that names its node pool and asks for all three updates. -/
def fullSpec : GKECluster :=
  { GKECluster.zero with
    ProjectID := "p", Zone := "z", Name := "c", NodePoolID := "pool-1",
    MasterVersion := "1.9.2", NodeVersion := "1.9.2", NodeCount := 3 }

/-- A control plane that accepts the three requests of `fullSpec`, reports the
cluster provisioning and then running after the master update, the node pool
running after the node-pool update, and the cluster running after the resize. -/
def fullScript : Script :=
  { Script.empty with
    clusterUpdates := [Except.ok { HTTPStatusCode := 200 }]
    nodePoolUpdates := [Except.ok { HTTPStatusCode := 200 }]
    setSizes := [Except.ok { HTTPStatusCode := 200 }]
    clusterGets := [Except.ok (clusterWith "PROVISIONING" []),
                    Except.ok (clusterWith "RUNNING" []),
                    Except.ok (clusterWith "RUNNING" [])]
    nodePoolGets := [Except.ok { Name := "pool-1", Status := "RUNNING" }] }

/-- The control plane of `fullScript`, except that the fetch of the node pool
fails. -/
def failingPoolScript : Script :=
  { fullScript with nodePoolGets := [Except.error ⟨"googleapi: Error 503"⟩] }

/-- The statuses at which the poller logs a status line: those that differ from the
status before them, `message` being the one before the first. -/
def statusChanges : String → List String → List String
  | _, [] => []
  | message, status :: rest =>
    if status ≠ message then status :: statusChanges status rest
    else statusChanges status rest

/-- The distinct elements of a list of statuses. -/
def distinct : List String → List String
  | [] => []
  | status :: rest => if status ∈ distinct rest then distinct rest else status :: distinct rest

/-- A script of cluster fetches that report the given statuses, in order. -/
def statusScript (statuses : List String) : Script :=
  { Script.empty with
    clusterGets := statuses.map (fun status => Except.ok (clusterWith status [])) }

/-! ## Properties -/

@[simp] theorem calls_append (xs ys : List Event) : calls (xs ++ ys) = calls xs ++ calls ys := by
  induction xs with
  | nil => rfl
  | cons e es ih => cases e <;> simp [calls, ih]

@[simp] theorem logs_append (xs ys : List Event) : logs (xs ++ ys) = logs xs ++ logs ys := by
  induction xs with
  | nil => rfl
  | cons e es ih => cases e <;> simp [logs, ih]

@[simp] theorem removals_append (xs ys : List Event) :
    removals (xs ++ ys) = removals xs ++ removals ys := by
  induction xs with
  | nil => rfl
  | cons e es ih => cases e <;> simp [removals, ih]

@[simp] theorem after_out {σ : Type} (pre : List Event) (r : Run σ) :
    (r.after pre).out = r.out := rfl

@[simp] theorem after_remote {σ : Type} (pre : List Event) (r : Run σ) :
    (r.after pre).remote = r.remote := rfl

@[simp] theorem after_trace {σ : Type} (pre : List Event) (r : Run σ) :
    (r.after pre).trace = pre ++ r.trace := rfl

/-- C1, evaluated on the code: for the spec `specNoName`, whose name is empty, and a
control plane that accepts the request, `Validate` reports the missing name, yet
`client.CreateCluster` sends the create request and the readiness fetch and returns
nil; the method `CreateCluster` of `main.go`, which calls `validate` and drops its
result, does the same. -/
theorem C1_create_sends_unvalidated_spec :
    (utils.Validate specNoName).1 = some ⟨"cluster name is required"⟩ ∧
    (client.CreateCluster scripted specNoName 1 readyScript).out = Outcome.returned none ∧
    calls (client.CreateCluster scripted specNoName 1 readyScript).trace =
      [Call.ClustersCreate "p" "z" (utils.GenerateClusterCreateRequest specNoName),
       Call.ClustersGet "p" "z" ""] ∧
    (main.validate specNoName).1 = some ⟨"cluster name is required"⟩ ∧
    (main.CreateCluster scripted GKECluster.zero "p" "z" 1 readyScript).1.out =
      Outcome.returned none ∧
    calls (main.CreateCluster scripted GKECluster.zero "p" "z" 1 readyScript).1.trace =
      [Call.ClustersCreate "p" "z" (main.generateClusterCreateRequest specNoName),
       Call.ClustersGet "p" "z" ""] := by
  decide

/-- C2: in the request built by `GenerateClusterCreateRequest` (and by the method
`generateClusterCreateRequest` of `main.go`) each of the four addons
HttpLoadBalancing, HorizontalPodAutoscaling, KubernetesDashboard and
NetworkPolicyConfig is present with `Disabled` equal to the negation of the
toggle of the spec; a spec with `HTTPLoadBalancing = true` gets `Disabled = false`. -/
theorem C2_addons_disabled_is_negated_toggle (cc : GKECluster) :
    (∃ c a, (utils.GenerateClusterCreateRequest cc).Cluster = some c ∧
      c.AddonsConfig = some a ∧
      a.HttpLoadBalancing = some { Disabled := !cc.HTTPLoadBalancing } ∧
      a.HorizontalPodAutoscaling = some { Disabled := !cc.HorizontalPodAutoscaling } ∧
      a.KubernetesDashboard = some { Disabled := !cc.KubernetesDashboard } ∧
      a.NetworkPolicyConfig = some { Disabled := !cc.NetworkPolicyConfig } ∧
      (cc.HTTPLoadBalancing = true → a.HttpLoadBalancing = some { Disabled := false })) ∧
    (∃ c a, (main.generateClusterCreateRequest cc).Cluster = some c ∧
      c.AddonsConfig = some a ∧
      a.HttpLoadBalancing = some { Disabled := !cc.HTTPLoadBalancing } ∧
      a.HorizontalPodAutoscaling = some { Disabled := !cc.HorizontalPodAutoscaling } ∧
      a.KubernetesDashboard = some { Disabled := !cc.KubernetesDashboard } ∧
      a.NetworkPolicyConfig = some { Disabled := !cc.NetworkPolicyConfig } ∧
      (cc.HTTPLoadBalancing = true → a.HttpLoadBalancing = some { Disabled := false })) := by
  refine ⟨⟨_, _, rfl, rfl, rfl, rfl, rfl, rfl, ?_⟩, ⟨_, _, rfl, rfl, rfl, rfl, rfl, rfl, ?_⟩⟩
  · intro h; simp [h]
  · intro h; simp [h]

/-- C2 at a spec whose only enabled toggle is `HTTPLoadBalancing`. -/
theorem C2_addons_disabled_witness :
    ∃ c a, (utils.GenerateClusterCreateRequest
        { GKECluster.zero with HTTPLoadBalancing := true }).Cluster = some c ∧
      c.AddonsConfig = some a ∧
      a.HttpLoadBalancing = some { Disabled := false } ∧
      a.HorizontalPodAutoscaling = some { Disabled := true } ∧
      a.KubernetesDashboard = some { Disabled := true } ∧
      a.NetworkPolicyConfig = some { Disabled := true } := by
  obtain ⟨c, a, h1, h2, h3, h4, h5, h6, -⟩ :=
    (C2_addons_disabled_is_negated_toggle { GKECluster.zero with HTTPLoadBalancing := true }).1
  exact ⟨c, a, h1, h2, h3, h4, h5, h6⟩

/-- A readiness poll of the cluster that is given fuel starts with a `Get` of the
cluster. -/
theorem waitForCluster_first_call {σ : Type} (svc : Service σ) (cc : GKECluster) (fuel : Nat)
    (message : String) (s : σ) :
    calls (utils.WaitForClusterLoop svc cc (fuel + 1) message s).trace =
      Call.ClustersGet cc.ProjectID cc.Zone cc.Name ::
        (calls (utils.WaitForClusterLoop svc cc (fuel + 1) message s).trace).tail := by
  unfold utils.WaitForClusterLoop
  rcases h : svc.ClustersGet cc.ProjectID cc.Zone cc.Name s with ⟨r, s1⟩
  cases r with
  | error err => simp [calls]
  | ok cluster =>
    simp only
    split_ifs <;> simp [calls]

theorem createCluster_of_ok {σ : Type} (svc : Service σ) (cc : GKECluster) (fuel : Nat)
    (s s1 : σ) (op : gke.Operation)
    (h : svc.ClustersCreate cc.ProjectID cc.Zone (utils.GenerateClusterCreateRequest cc) s
      = (Except.ok op, s1)) :
    (client.CreateCluster svc cc fuel s).out = (utils.WaitForCluster svc cc fuel s1).out ∧
    (client.CreateCluster svc cc fuel s).remote = (utils.WaitForCluster svc cc fuel s1).remote ∧
    calls (client.CreateCluster svc cc fuel s).trace =
      Call.ClustersCreate cc.ProjectID cc.Zone (utils.GenerateClusterCreateRequest cc) ::
        calls (utils.WaitForCluster svc cc fuel s1).trace := by
  simp [client.CreateCluster, h, calls]

theorem createCluster_of_exists {σ : Type} (svc : Service σ) (cc : GKECluster) (fuel : Nat)
    (s s1 : σ) (err : Error)
    (h : svc.ClustersCreate cc.ProjectID cc.Zone (utils.GenerateClusterCreateRequest cc) s
      = (Except.error err, s1))
    (hc : strings.Contains err.msg "alreadyExists" = true) :
    (client.CreateCluster svc cc fuel s).out = (utils.WaitForCluster svc cc fuel s1).out ∧
    (client.CreateCluster svc cc fuel s).remote = (utils.WaitForCluster svc cc fuel s1).remote ∧
    calls (client.CreateCluster svc cc fuel s).trace =
      Call.ClustersCreate cc.ProjectID cc.Zone (utils.GenerateClusterCreateRequest cc) ::
        calls (utils.WaitForCluster svc cc fuel s1).trace := by
  simp [client.CreateCluster, h, hc, calls]

theorem createCluster_of_fatal {σ : Type} (svc : Service σ) (cc : GKECluster) (fuel : Nat)
    (s s1 : σ) (err : Error)
    (h : svc.ClustersCreate cc.ProjectID cc.Zone (utils.GenerateClusterCreateRequest cc) s
      = (Except.error err, s1))
    (hc : strings.Contains err.msg "alreadyExists" = false) :
    (client.CreateCluster svc cc fuel s).out = Outcome.returned (some err) ∧
    (client.CreateCluster svc cc fuel s).remote = s1 ∧
    calls (client.CreateCluster svc cc fuel s).trace =
      [Call.ClustersCreate cc.ProjectID cc.Zone (utils.GenerateClusterCreateRequest cc)] := by
  simp [client.CreateCluster, h, hc, calls]

/-- C3: let `sub` be the response of the control plane to the create request.  When
`sub` is a success, or an error whose text contains "alreadyExists",
`CreateCluster` goes on to the readiness poll and its result, the remote state and
the calls after the create request are exactly those of `WaitForCluster` run after
the submission (and with fuel the poll does fetch the cluster).  When `sub` is any
other error, `CreateCluster` returns that error and the create request is the only
call it made. -/
theorem C3_create_tolerates_already_exists {σ : Type} (svc : Service σ) (cc : GKECluster)
    (fuel : Nat) (s : σ) :
    let req := utils.GenerateClusterCreateRequest cc
    let sub := svc.ClustersCreate cc.ProjectID cc.Zone req s
    let run := client.CreateCluster svc cc fuel s
    let poll := utils.WaitForCluster svc cc fuel sub.2
    (((∃ op, sub.1 = Except.ok op) ∨
        (∃ err, sub.1 = Except.error err ∧ strings.Contains err.msg "alreadyExists" = true)) →
      run.out = poll.out ∧ run.remote = poll.remote ∧
      calls run.trace = Call.ClustersCreate cc.ProjectID cc.Zone req :: calls poll.trace ∧
      (0 < fuel → ∃ rest, calls run.trace = Call.ClustersCreate cc.ProjectID cc.Zone req ::
        Call.ClustersGet cc.ProjectID cc.Zone cc.Name :: rest)) ∧
    (∀ err, sub.1 = Except.error err → strings.Contains err.msg "alreadyExists" = false →
      run.out = Outcome.returned (some err) ∧ run.remote = sub.2 ∧
      calls run.trace = [Call.ClustersCreate cc.ProjectID cc.Zone req]) := by
  dsimp only
  rcases hs : svc.ClustersCreate cc.ProjectID cc.Zone (utils.GenerateClusterCreateRequest cc) s
    with ⟨r, s1⟩
  have first : 0 < fuel → calls (utils.WaitForCluster svc cc fuel s1).trace =
      Call.ClustersGet cc.ProjectID cc.Zone cc.Name ::
        (calls (utils.WaitForCluster svc cc fuel s1).trace).tail := by
    intro hf
    obtain ⟨k, rfl⟩ := Nat.exists_eq_succ_of_ne_zero (Nat.pos_iff_ne_zero.mp hf)
    exact waitForCluster_first_call svc cc k "" s1
  constructor
  · intro h
    have key : (client.CreateCluster svc cc fuel s).out = (utils.WaitForCluster svc cc fuel s1).out ∧
        (client.CreateCluster svc cc fuel s).remote = (utils.WaitForCluster svc cc fuel s1).remote ∧
        calls (client.CreateCluster svc cc fuel s).trace =
          Call.ClustersCreate cc.ProjectID cc.Zone (utils.GenerateClusterCreateRequest cc) ::
            calls (utils.WaitForCluster svc cc fuel s1).trace := by
      rcases h with ⟨op, h⟩ | ⟨err, h, hc⟩
      · simp only at h
        subst h
        exact createCluster_of_ok svc cc fuel s s1 op hs
      · simp only at h
        subst h
        exact createCluster_of_exists svc cc fuel s s1 err hs hc
    refine ⟨key.1, key.2.1, key.2.2, fun hf =>
      ⟨(calls (utils.WaitForCluster svc cc fuel s1).trace).tail, ?_⟩⟩
    rw [key.2.2]
    exact congrArg _ (first hf)
  · intro err h hc
    simp only at h
    subst h
    exact createCluster_of_fatal svc cc fuel s s1 err hs hc

/-- C3 on a scripted control plane that answers the create request with
"alreadyExists" and the first fetch with a running cluster. -/
theorem C3_create_tolerates_already_exists_witness :
    (client.CreateCluster scripted specNoName 1
        { readyScript with creates := [Except.error ⟨"googleapi: Error 409: alreadyExists"⟩] }).out
      = Outcome.returned none ∧
    ∃ rest, calls (client.CreateCluster scripted specNoName 1
        { readyScript with creates := [Except.error ⟨"googleapi: Error 409: alreadyExists"⟩]
          }).trace =
      Call.ClustersCreate "p" "z" (utils.GenerateClusterCreateRequest specNoName) ::
        Call.ClustersGet "p" "z" "" :: rest := by
  have h := (C3_create_tolerates_already_exists scripted specNoName 1
    { readyScript with creates := [Except.error ⟨"googleapi: Error 409: alreadyExists"⟩] }).1
    (Or.inr ⟨⟨"googleapi: Error 409: alreadyExists"⟩, rfl, by decide⟩)
  exact ⟨h.1.trans (by decide), h.2.2.2 (by decide)⟩

theorem deleteCluster_of_ok {σ φ : Type} (svc : Service σ)
    (osRemoveAll : String → φ → Option Error × φ) (cc : GKECluster) (s s1 : σ) (fs : φ)
    (op : gke.Operation)
    (h : svc.ClustersDelete cc.ProjectID cc.Zone cc.Name s = (Except.ok op, s1)) :
    (client.DeleteCluster svc osRemoveAll cc s fs).1.out = Outcome.returned none ∧
    (client.DeleteCluster svc osRemoveAll cc s fs).1.remote = s1 ∧
    calls (client.DeleteCluster svc osRemoveAll cc s fs).1.trace =
      [Call.ClustersDelete cc.ProjectID cc.Zone cc.Name] ∧
    removals (client.DeleteCluster svc osRemoveAll cc s fs).1.trace = [cc.TempCredentialPath] ∧
    (client.DeleteCluster svc osRemoveAll cc s fs).2 = (osRemoveAll cc.TempCredentialPath fs).2 := by
  simp [client.DeleteCluster, h, calls, removals]

theorem deleteCluster_of_notFound {σ φ : Type} (svc : Service σ)
    (osRemoveAll : String → φ → Option Error × φ) (cc : GKECluster) (s s1 : σ) (fs : φ)
    (err : Error)
    (h : svc.ClustersDelete cc.ProjectID cc.Zone cc.Name s = (Except.error err, s1))
    (hc : strings.Contains err.msg "notFound" = true) :
    (client.DeleteCluster svc osRemoveAll cc s fs).1.out = Outcome.returned none ∧
    (client.DeleteCluster svc osRemoveAll cc s fs).1.remote = s1 ∧
    calls (client.DeleteCluster svc osRemoveAll cc s fs).1.trace =
      [Call.ClustersDelete cc.ProjectID cc.Zone cc.Name] ∧
    removals (client.DeleteCluster svc osRemoveAll cc s fs).1.trace = [cc.TempCredentialPath] ∧
    (client.DeleteCluster svc osRemoveAll cc s fs).2 = (osRemoveAll cc.TempCredentialPath fs).2 := by
  simp [client.DeleteCluster, h, hc, calls, removals]

theorem deleteCluster_of_fatal {σ φ : Type} (svc : Service σ)
    (osRemoveAll : String → φ → Option Error × φ) (cc : GKECluster) (s s1 : σ) (fs : φ)
    (err : Error)
    (h : svc.ClustersDelete cc.ProjectID cc.Zone cc.Name s = (Except.error err, s1))
    (hc : strings.Contains err.msg "notFound" = false) :
    (client.DeleteCluster svc osRemoveAll cc s fs).1.out = Outcome.returned (some err) ∧
    (client.DeleteCluster svc osRemoveAll cc s fs).1.remote = s1 ∧
    calls (client.DeleteCluster svc osRemoveAll cc s fs).1.trace =
      [Call.ClustersDelete cc.ProjectID cc.Zone cc.Name] ∧
    removals (client.DeleteCluster svc osRemoveAll cc s fs).1.trace = [] ∧
    (client.DeleteCluster svc osRemoveAll cc s fs).2 = fs := by
  simp [client.DeleteCluster, h, hc, calls, removals]

/-- C4: `DeleteCluster` sends exactly one delete request; it returns nil exactly when
the response `sub` to that request is a success or an error whose text contains
"notFound", and for every other error it returns that same error. -/
theorem C4_delete_tolerates_not_found {σ φ : Type} (svc : Service σ)
    (osRemoveAll : String → φ → Option Error × φ) (cc : GKECluster) (s : σ) (fs : φ) :
    let sub := svc.ClustersDelete cc.ProjectID cc.Zone cc.Name s
    let run := (client.DeleteCluster svc osRemoveAll cc s fs).1
    (run.out = Outcome.returned none ↔
      ((∃ op, sub.1 = Except.ok op) ∨
       (∃ err, sub.1 = Except.error err ∧ strings.Contains err.msg "notFound" = true))) ∧
    (∀ err, sub.1 = Except.error err → strings.Contains err.msg "notFound" = false →
      run.out = Outcome.returned (some err)) ∧
    calls run.trace = [Call.ClustersDelete cc.ProjectID cc.Zone cc.Name] := by
  dsimp only
  rcases hs : svc.ClustersDelete cc.ProjectID cc.Zone cc.Name s with ⟨r, s1⟩
  cases r with
  | ok op =>
    have k := deleteCluster_of_ok svc osRemoveAll cc s s1 fs op hs
    refine ⟨⟨fun _ => Or.inl ⟨op, rfl⟩, fun _ => k.1⟩, fun err h => by simp at h, k.2.2.1⟩
  | error e =>
    cases hc : strings.Contains e.msg "notFound" with
    | true =>
      have k := deleteCluster_of_notFound svc osRemoveAll cc s s1 fs e hs hc
      refine ⟨⟨fun _ => Or.inr ⟨e, rfl, hc⟩, fun _ => k.1⟩, fun err h hn => ?_, k.2.2.1⟩
      simp only [Except.error.injEq] at h
      subst h
      rw [hc] at hn
      exact absurd hn (by decide)
    | false =>
      have k := deleteCluster_of_fatal svc osRemoveAll cc s s1 fs e hs hc
      refine ⟨⟨fun h => ?_, fun h => ?_⟩, fun err h _ => ?_, k.2.2.1⟩
      · rw [k.1] at h
        simp at h
      · rcases h with ⟨op, h⟩ | ⟨err, h, hn⟩
        · simp at h
        · simp only [Except.error.injEq] at h
          subst h
          rw [hc] at hn
          exact absurd hn (by decide)
      · simp only [Except.error.injEq] at h
        subst h
        exact k.1

/-- C4 on a scripted control plane that answers the delete request of a cluster
that does not exist with a "notFound" error: the delete returns nil. -/
theorem C4_delete_tolerates_not_found_witness :
    (client.DeleteCluster scripted (fun _ (fs : List String) => (none, fs)) specNoName
      { Script.empty with deletes := [Except.error ⟨"googleapi: Error 404: notFound"⟩] }
      []).1.out = Outcome.returned none :=
  (C4_delete_tolerates_not_found scripted (fun _ (fs : List String) => (none, fs)) specNoName
    { Script.empty with deletes := [Except.error ⟨"googleapi: Error 404: notFound"⟩] } []).1.mpr
    (Or.inr ⟨⟨"googleapi: Error 404: notFound"⟩, rfl, by decide⟩)

/-- C9: `Validate` (and the method `validate` of `main.go`) returns an error exactly
when one of ProjectID, Zone, Name is empty; the error names the first missing field
in the order project, zone, name; it returns nil when the three are non-empty; and
it leaves the spec as it was. -/
theorem C9_validate_first_missing_field (cc : GKECluster) :
    (((utils.Validate cc).1 ≠ none ↔ (cc.ProjectID = "" ∨ cc.Zone = "" ∨ cc.Name = "")) ∧
     (cc.ProjectID = "" → (utils.Validate cc).1 = some ⟨"project ID is required"⟩) ∧
     (cc.ProjectID ≠ "" → cc.Zone = "" → (utils.Validate cc).1 = some ⟨"zone is required"⟩) ∧
     (cc.ProjectID ≠ "" → cc.Zone ≠ "" → cc.Name = "" →
       (utils.Validate cc).1 = some ⟨"cluster name is required"⟩) ∧
     (cc.ProjectID ≠ "" → cc.Zone ≠ "" → cc.Name ≠ "" → (utils.Validate cc).1 = none) ∧
     (utils.Validate cc).2 = cc) ∧
    (((main.validate cc).1 ≠ none ↔ (cc.ProjectID = "" ∨ cc.Zone = "" ∨ cc.Name = "")) ∧
     (cc.ProjectID = "" → (main.validate cc).1 = some ⟨"project ID is required"⟩) ∧
     (cc.ProjectID ≠ "" → cc.Zone = "" → (main.validate cc).1 = some ⟨"zone is required"⟩) ∧
     (cc.ProjectID ≠ "" → cc.Zone ≠ "" → cc.Name = "" →
       (main.validate cc).1 = some ⟨"cluster name is required"⟩) ∧
     (cc.ProjectID ≠ "" → cc.Zone ≠ "" → cc.Name ≠ "" → (main.validate cc).1 = none) ∧
     (main.validate cc).2 = cc) := by
  unfold utils.Validate main.validate fmt.Errorf
  by_cases hp : cc.ProjectID = "" <;> by_cases hz : cc.Zone = "" <;>
    by_cases hn : cc.Name = "" <;> simp [hp, hz, hn]

/-- C9 at a spec with a project and no zone: the error names the zone. -/
theorem C9_validate_first_missing_field_witness :
    (utils.Validate { GKECluster.zero with ProjectID := "p" }).1 =
      some ⟨"zone is required"⟩ :=
  (C9_validate_first_missing_field { GKECluster.zero with ProjectID := "p" }).1.2.2.1
    (by decide) (by decide)

/-- C10: when the delete request succeeds or fails with "notFound", `DeleteCluster`
calls `os.RemoveAll` once, on the spec's `TempCredentialPath`, the file system it
leaves is the one that call leaves, and it returns nil whatever that call returns;
when the delete request fails with another error, no removal is attempted and the
file system is as it was.  What `DeleteCluster` returns, the remote state and the
trace do not depend on how `os.RemoveAll` behaves. -/
theorem C10_delete_removes_temp_credential {σ φ : Type} (svc : Service σ)
    (osRemoveAll : String → φ → Option Error × φ) (cc : GKECluster) (s : σ) (fs : φ) :
    let sub := svc.ClustersDelete cc.ProjectID cc.Zone cc.Name s
    let del := client.DeleteCluster svc osRemoveAll cc s fs
    (((∃ op, sub.1 = Except.ok op) ∨
        (∃ err, sub.1 = Except.error err ∧ strings.Contains err.msg "notFound" = true)) →
      del.1.out = Outcome.returned none ∧
      removals del.1.trace = [cc.TempCredentialPath] ∧
      del.2 = (osRemoveAll cc.TempCredentialPath fs).2) ∧
    (∀ err, sub.1 = Except.error err → strings.Contains err.msg "notFound" = false →
      del.1.out = Outcome.returned (some err) ∧ removals del.1.trace = [] ∧ del.2 = fs) ∧
    (∀ other : String → φ → Option Error × φ,
      (client.DeleteCluster svc other cc s fs).1.out = del.1.out ∧
      (client.DeleteCluster svc other cc s fs).1.remote = del.1.remote ∧
      (client.DeleteCluster svc other cc s fs).1.trace = del.1.trace) := by
  dsimp only
  rcases hs : svc.ClustersDelete cc.ProjectID cc.Zone cc.Name s with ⟨r, s1⟩
  refine ⟨fun h => ?_, fun err h hc => ?_, fun other => ?_⟩
  · rcases h with ⟨op, h⟩ | ⟨err, h, hc⟩
    · simp only at h
      subst h
      have k := deleteCluster_of_ok svc osRemoveAll cc s s1 fs op hs
      exact ⟨k.1, k.2.2.2.1, k.2.2.2.2⟩
    · simp only at h
      subst h
      have k := deleteCluster_of_notFound svc osRemoveAll cc s s1 fs err hs hc
      exact ⟨k.1, k.2.2.2.1, k.2.2.2.2⟩
  · simp only at h
    subst h
    have k := deleteCluster_of_fatal svc osRemoveAll cc s s1 fs err hs hc
    exact ⟨k.1, k.2.2.2.1, k.2.2.2.2⟩
  · unfold client.DeleteCluster
    rw [hs]
    cases r with
    | ok op => simp
    | error e => cases hc : strings.Contains e.msg "notFound" <;> simp [hc]

/-- C10 on a file system that is the list of its paths, with a removal that
succeeds: after a successful delete the credential file is gone. -/
theorem C10_delete_removes_temp_credential_witness :
    (client.DeleteCluster scripted
      (fun path (fs : List String) => (none, fs.filter (fun f => f ≠ path)))
      { specNoName with TempCredentialPath := "/tmp/key.json" }
      { Script.empty with deletes := [Except.ok { HTTPStatusCode := 200 }] }
      ["/tmp/key.json", "/etc/hosts"]).2 = ["/etc/hosts"] :=
  ((C10_delete_removes_temp_credential scripted
      (fun path (fs : List String) => (none, fs.filter (fun f => f ≠ path)))
      { specNoName with TempCredentialPath := "/tmp/key.json" }
      { Script.empty with deletes := [Except.ok { HTTPStatusCode := 200 }] }
      ["/tmp/key.json", "/etc/hosts"]).1 (Or.inl ⟨_, rfl⟩)).2.2.trans (by decide)

/-- A list with a stopping fetch splits at the first one. -/
theorem exists_first_stop (rs : List (Except Error String))
    (h : ∃ r ∈ rs, fetchStops r = true) :
    ∃ pre r post, rs = pre ++ r :: post ∧ (∀ x ∈ pre, fetchStops x = false) ∧
      fetchStops r = true := by
  induction rs with
  | nil => simp at h
  | cons a rest ih =>
    cases ha : fetchStops a with
    | true => exact ⟨[], a, rest, rfl, by simp, ha⟩
    | false =>
      have h2 : ∃ r ∈ rest, fetchStops r = true := by
        obtain ⟨r, hr, hs⟩ := h
        rcases List.mem_cons.mp hr with rfl | hr
        · rw [ha] at hs; exact absurd hs (by decide)
        · exact ⟨r, hr, hs⟩
      obtain ⟨pre, r, post, rfl, hpre, hr⟩ := ih h2
      refine ⟨a :: pre, r, post, rfl, ?_, hr⟩
      intro x hx
      rcases List.mem_cons.mp hx with rfl | hx
      · exact ha
      · exact hpre x hx

/-- One iteration of the loop of `WaitForCluster` on a fetch error. -/
theorem waitForClusterLoop_error {σ : Type} (svc : Service σ) (cc : GKECluster) (fuel : Nat)
    (message : String) (s s1 : σ) (err : Error)
    (h : svc.ClustersGet cc.ProjectID cc.Zone cc.Name s = (Except.error err, s1)) :
    utils.WaitForClusterLoop svc cc (fuel + 1) message s =
      { out := Outcome.returned (some err), remote := s1,
        trace := [Event.call (Call.ClustersGet cc.ProjectID cc.Zone cc.Name)] } := by
  rw [utils.WaitForClusterLoop, h]

/-- One iteration of the loop of `WaitForCluster` on a running cluster. -/
theorem waitForClusterLoop_running {σ : Type} (svc : Service σ) (cc : GKECluster) (fuel : Nat)
    (message : String) (s s1 : σ) (cluster : gke.Cluster)
    (h : svc.ClustersGet cc.ProjectID cc.Zone cc.Name s = (Except.ok cluster, s1))
    (hr : cluster.Status = "RUNNING") :
    utils.WaitForClusterLoop svc cc (fuel + 1) message s =
      { out := Outcome.returned none, remote := s1,
        trace := [Event.call (Call.ClustersGet cc.ProjectID cc.Zone cc.Name),
                  Event.log "Cluster %v is running" [Arg.str cc.Name]] } := by
  rw [utils.WaitForClusterLoop, h]
  simp [hr, utils.statusRunning]

/-- One iteration of the loop of `WaitForCluster` on a cluster that is not running:
the loop goes on with `message` equal to the status just seen, and logs the status
only when it differs from the old `message`. -/
theorem waitForClusterLoop_other {σ : Type} (svc : Service σ) (cc : GKECluster) (fuel : Nat)
    (message : String) (s s1 : σ) (cluster : gke.Cluster)
    (h : svc.ClustersGet cc.ProjectID cc.Zone cc.Name s = (Except.ok cluster, s1))
    (hr : cluster.Status ≠ "RUNNING") :
    utils.WaitForClusterLoop svc cc (fuel + 1) message s =
      (utils.WaitForClusterLoop svc cc fuel cluster.Status s1).after
        (Event.call (Call.ClustersGet cc.ProjectID cc.Zone cc.Name) ::
          ((if cluster.Status ≠ message then
              [Event.log "%v cluster %v" [Arg.str cluster.Status, Arg.str cc.Name]]
            else []) ++ [Event.sleep 5])) := by
  rw [utils.WaitForClusterLoop, h]
  by_cases hm : cluster.Status = message
  · subst hm
    simp [hr, utils.statusRunning]
  · simp [hr, hm, utils.statusRunning]

/-- One iteration of the loop of `WaitForNodePool` on a fetch error. -/
theorem waitForNodePoolLoop_error {σ : Type} (svc : Service σ) (cc : GKECluster) (fuel : Nat)
    (message : String) (s s1 : σ) (err : Error)
    (h : svc.NodePoolsGet cc.ProjectID cc.Zone cc.Name cc.NodePoolID s = (Except.error err, s1)) :
    utils.WaitForNodePoolLoop svc cc (fuel + 1) message s =
      { out := Outcome.returned (some err), remote := s1,
        trace := [Event.call (Call.NodePoolsGet cc.ProjectID cc.Zone cc.Name cc.NodePoolID)] } := by
  rw [utils.WaitForNodePoolLoop, h]

/-- One iteration of the loop of `WaitForNodePool` on a running node pool. -/
theorem waitForNodePoolLoop_running {σ : Type} (svc : Service σ) (cc : GKECluster) (fuel : Nat)
    (message : String) (s s1 : σ) (nodepool : gke.NodePool)
    (h : svc.NodePoolsGet cc.ProjectID cc.Zone cc.Name cc.NodePoolID s = (Except.ok nodepool, s1))
    (hr : nodepool.Status = "RUNNING") :
    utils.WaitForNodePoolLoop svc cc (fuel + 1) message s =
      { out := Outcome.returned none, remote := s1,
        trace := [Event.call (Call.NodePoolsGet cc.ProjectID cc.Zone cc.Name cc.NodePoolID),
                  Event.log "Nodepool %v is running" [Arg.str cc.Name]] } := by
  rw [utils.WaitForNodePoolLoop, h]
  simp [hr, utils.statusRunning]

/-- One iteration of the loop of `WaitForNodePool` on a node pool that is not running. -/
theorem waitForNodePoolLoop_other {σ : Type} (svc : Service σ) (cc : GKECluster) (fuel : Nat)
    (message : String) (s s1 : σ) (nodepool : gke.NodePool)
    (h : svc.NodePoolsGet cc.ProjectID cc.Zone cc.Name cc.NodePoolID s = (Except.ok nodepool, s1))
    (hr : nodepool.Status ≠ "RUNNING") :
    utils.WaitForNodePoolLoop svc cc (fuel + 1) message s =
      (utils.WaitForNodePoolLoop svc cc fuel nodepool.Status s1).after
        (Event.call (Call.NodePoolsGet cc.ProjectID cc.Zone cc.Name cc.NodePoolID) ::
          ((if nodepool.Status ≠ message then
              [Event.log "%v nodepool %v" [Arg.str nodepool.Status, Arg.str cc.NodePoolID]]
            else []) ++ [Event.sleep 5])) := by
  rw [utils.WaitForNodePoolLoop, h]
  by_cases hm : nodepool.Status = message
  · subst hm
    simp [hr, utils.statusRunning]
  · simp [hr, hm, utils.statusRunning]

/-- The calls of an iteration of the loop of `WaitForCluster` that goes on. -/
theorem waitForClusterLoop_other_calls {σ : Type} (svc : Service σ) (cc : GKECluster)
    (fuel : Nat) (message : String) (s s1 : σ) (cluster : gke.Cluster)
    (h : svc.ClustersGet cc.ProjectID cc.Zone cc.Name s = (Except.ok cluster, s1))
    (hr : cluster.Status ≠ "RUNNING") :
    calls (utils.WaitForClusterLoop svc cc (fuel + 1) message s).trace =
      Call.ClustersGet cc.ProjectID cc.Zone cc.Name ::
        calls (utils.WaitForClusterLoop svc cc fuel cluster.Status s1).trace := by
  rw [waitForClusterLoop_other svc cc fuel message s s1 cluster h hr]
  by_cases hm : cluster.Status = message <;> simp [hm, calls]

/-- The calls of an iteration of the loop of `WaitForNodePool` that goes on. -/
theorem waitForNodePoolLoop_other_calls {σ : Type} (svc : Service σ) (cc : GKECluster)
    (fuel : Nat) (message : String) (s s1 : σ) (nodepool : gke.NodePool)
    (h : svc.NodePoolsGet cc.ProjectID cc.Zone cc.Name cc.NodePoolID s = (Except.ok nodepool, s1))
    (hr : nodepool.Status ≠ "RUNNING") :
    calls (utils.WaitForNodePoolLoop svc cc (fuel + 1) message s).trace =
      Call.NodePoolsGet cc.ProjectID cc.Zone cc.Name cc.NodePoolID ::
        calls (utils.WaitForNodePoolLoop svc cc fuel nodepool.Status s1).trace := by
  rw [waitForNodePoolLoop_other svc cc fuel message s s1 nodepool h hr]
  by_cases hm : nodepool.Status = message <;> simp [hm, calls]

/-- The loop of `WaitForCluster` on a script of cluster fetches whose first
stopping fetch is `r`, after `pre`. -/
theorem waitForClusterLoop_scripted (cc : GKECluster) (r : Except Error String)
    (post : List (Except Error String)) (hr : fetchStops r = true)
    (pre : List (Except Error String)) :
    ∀ (s : Script) (message : String) (fuel : Nat),
      (∀ x ∈ pre, fetchStops x = false) → pre.length < fuel →
      (utils.WaitForClusterLoop scripted cc fuel message
          { s with clusterGets := (pre ++ r :: post).map asCluster }).out
        = Outcome.returned (fetchError r) ∧
      (utils.WaitForClusterLoop scripted cc fuel message
          { s with clusterGets := (pre ++ r :: post).map asCluster }).remote
        = { s with clusterGets := post.map asCluster } ∧
      calls (utils.WaitForClusterLoop scripted cc fuel message
          { s with clusterGets := (pre ++ r :: post).map asCluster }).trace
        = List.replicate (pre.length + 1) (Call.ClustersGet cc.ProjectID cc.Zone cc.Name) := by
  induction pre with
  | nil =>
    intro s message fuel _ hf
    obtain ⟨k, rfl⟩ := Nat.exists_eq_succ_of_ne_zero (Nat.pos_iff_ne_zero.mp hf)
    have hget : scripted.ClustersGet cc.ProjectID cc.Zone cc.Name
        { s with clusterGets := ([] ++ r :: post).map asCluster }
        = (asCluster r, { s with clusterGets := post.map asCluster }) := rfl
    cases r with
    | error err =>
      rw [waitForClusterLoop_error scripted cc k message _ _ err hget]
      exact ⟨rfl, rfl, rfl⟩
    | ok status =>
      have hs : status = "RUNNING" := by simpa [fetchStops] using hr
      subst hs
      rw [waitForClusterLoop_running scripted cc k message _ _ _ hget rfl]
      exact ⟨rfl, rfl, rfl⟩
  | cons x pre ih =>
    intro s message fuel hpre hf
    obtain ⟨k, rfl⟩ := Nat.exists_eq_succ_of_ne_zero (Nat.pos_iff_ne_zero.mp (Nat.zero_lt_of_lt hf))
    have hk : pre.length < k := by simpa using hf
    have hx : fetchStops x = false := hpre x (List.mem_cons_self _ _)
    have hpre2 : ∀ y ∈ pre, fetchStops y = false := fun y hy => hpre y (List.mem_cons_of_mem _ hy)
    have hget : scripted.ClustersGet cc.ProjectID cc.Zone cc.Name
        { s with clusterGets := (x :: pre ++ r :: post).map asCluster }
        = (asCluster x, { s with clusterGets := (pre ++ r :: post).map asCluster }) := rfl
    cases x with
    | error err => simp [fetchStops] at hx
    | ok status =>
      have hs : status ≠ "RUNNING" := by simpa [fetchStops] using hx
      obtain ⟨h1, h2, h3⟩ := ih s status k hpre2 hk
      refine ⟨?_, ?_, ?_⟩
      · rw [waitForClusterLoop_other scripted cc k message _ _ (clusterWith status []) hget hs]
        exact h1
      · rw [waitForClusterLoop_other scripted cc k message _ _ (clusterWith status []) hget hs]
        exact h2
      · rw [waitForClusterLoop_other_calls scripted cc k message _ _ (clusterWith status [])
          hget hs]
        have h3b : calls (utils.WaitForClusterLoop scripted cc k status
            { s with clusterGets := (pre ++ r :: post).map asCluster }).trace
            = List.replicate (pre.length + 1) (Call.ClustersGet cc.ProjectID cc.Zone cc.Name) := h3
        rw [show (clusterWith status []).Status = status from rfl, h3b]
        simp [List.replicate_succ]

/-- The loop of `WaitForNodePool` on a script of node-pool fetches whose first
stopping fetch is `r`, after `pre`. -/
theorem waitForNodePoolLoop_scripted (cc : GKECluster) (r : Except Error String)
    (post : List (Except Error String)) (hr : fetchStops r = true)
    (pre : List (Except Error String)) :
    ∀ (s : Script) (message : String) (fuel : Nat),
      (∀ x ∈ pre, fetchStops x = false) → pre.length < fuel →
      (utils.WaitForNodePoolLoop scripted cc fuel message
          { s with nodePoolGets := (pre ++ r :: post).map (asNodePool cc.NodePoolID) }).out
        = Outcome.returned (fetchError r) ∧
      (utils.WaitForNodePoolLoop scripted cc fuel message
          { s with nodePoolGets := (pre ++ r :: post).map (asNodePool cc.NodePoolID) }).remote
        = { s with nodePoolGets := post.map (asNodePool cc.NodePoolID) } ∧
      calls (utils.WaitForNodePoolLoop scripted cc fuel message
          { s with nodePoolGets := (pre ++ r :: post).map (asNodePool cc.NodePoolID) }).trace
        = List.replicate (pre.length + 1)
            (Call.NodePoolsGet cc.ProjectID cc.Zone cc.Name cc.NodePoolID) := by
  induction pre with
  | nil =>
    intro s message fuel _ hf
    obtain ⟨k, rfl⟩ := Nat.exists_eq_succ_of_ne_zero (Nat.pos_iff_ne_zero.mp hf)
    have hget : scripted.NodePoolsGet cc.ProjectID cc.Zone cc.Name cc.NodePoolID
        { s with nodePoolGets := ([] ++ r :: post).map (asNodePool cc.NodePoolID) }
        = (asNodePool cc.NodePoolID r,
           { s with nodePoolGets := post.map (asNodePool cc.NodePoolID) }) := rfl
    cases r with
    | error err =>
      rw [waitForNodePoolLoop_error scripted cc k message _ _ err hget]
      exact ⟨rfl, rfl, rfl⟩
    | ok status =>
      have hs : status = "RUNNING" := by simpa [fetchStops] using hr
      subst hs
      rw [waitForNodePoolLoop_running scripted cc k message _ _ _ hget rfl]
      exact ⟨rfl, rfl, rfl⟩
  | cons x pre ih =>
    intro s message fuel hpre hf
    obtain ⟨k, rfl⟩ := Nat.exists_eq_succ_of_ne_zero (Nat.pos_iff_ne_zero.mp (Nat.zero_lt_of_lt hf))
    have hk : pre.length < k := by simpa using hf
    have hx : fetchStops x = false := hpre x (List.mem_cons_self _ _)
    have hpre2 : ∀ y ∈ pre, fetchStops y = false := fun y hy => hpre y (List.mem_cons_of_mem _ hy)
    have hget : scripted.NodePoolsGet cc.ProjectID cc.Zone cc.Name cc.NodePoolID
        { s with nodePoolGets := (x :: pre ++ r :: post).map (asNodePool cc.NodePoolID) }
        = (asNodePool cc.NodePoolID x,
           { s with nodePoolGets := (pre ++ r :: post).map (asNodePool cc.NodePoolID) }) := rfl
    cases x with
    | error err => simp [fetchStops] at hx
    | ok status =>
      have hs : status ≠ "RUNNING" := by simpa [fetchStops] using hx
      obtain ⟨h1, h2, h3⟩ := ih s status k hpre2 hk
      refine ⟨?_, ?_, ?_⟩
      · rw [waitForNodePoolLoop_other scripted cc k message _ _
          { Name := cc.NodePoolID, Status := status } hget hs]
        exact h1
      · rw [waitForNodePoolLoop_other scripted cc k message _ _
          { Name := cc.NodePoolID, Status := status } hget hs]
        exact h2
      · rw [waitForNodePoolLoop_other_calls scripted cc k message _ _
          { Name := cc.NodePoolID, Status := status } hget hs]
        have h3b : calls (utils.WaitForNodePoolLoop scripted cc k status
            { s with nodePoolGets := (pre ++ r :: post).map (asNodePool cc.NodePoolID) }).trace
            = List.replicate (pre.length + 1)
                (Call.NodePoolsGet cc.ProjectID cc.Zone cc.Name cc.NodePoolID) := h3
        rw [h3b]
        simp [List.replicate_succ]

/-- While the script has shown only statuses other than "RUNNING", the loop of
`WaitForCluster` has not returned. -/
theorem waitForClusterLoop_scripted_early (cc : GKECluster) (rest : List (Except Error String))
    (pre : List (Except Error String)) :
    ∀ (s : Script) (message : String) (fuel : Nat),
      (∀ x ∈ pre, fetchStops x = false) → fuel ≤ pre.length →
      (utils.WaitForClusterLoop scripted cc fuel message
          { s with clusterGets := (pre ++ rest).map asCluster }).out = Outcome.polling := by
  induction pre with
  | nil =>
    intro s message fuel _ hf
    obtain rfl : fuel = 0 := by simpa using hf
    rfl
  | cons x pre ih =>
    intro s message fuel hpre hf
    cases fuel with
    | zero => rfl
    | succ k =>
      have hk : k ≤ pre.length := by simpa using hf
      have hx : fetchStops x = false := hpre x (List.mem_cons_self _ _)
      have hpre2 : ∀ y ∈ pre, fetchStops y = false :=
        fun y hy => hpre y (List.mem_cons_of_mem _ hy)
      have hget : scripted.ClustersGet cc.ProjectID cc.Zone cc.Name
          { s with clusterGets := (x :: pre ++ rest).map asCluster }
          = (asCluster x, { s with clusterGets := (pre ++ rest).map asCluster }) := rfl
      cases x with
      | error err => simp [fetchStops] at hx
      | ok status =>
        have hs : status ≠ "RUNNING" := by simpa [fetchStops] using hx
        rw [waitForClusterLoop_other scripted cc k message _ _ (clusterWith status []) hget hs]
        exact ih s status k hpre2 hk

/-- While the script has shown only statuses other than "RUNNING", the loop of
`WaitForNodePool` has not returned. -/
theorem waitForNodePoolLoop_scripted_early (cc : GKECluster)
    (rest : List (Except Error String)) (pre : List (Except Error String)) :
    ∀ (s : Script) (message : String) (fuel : Nat),
      (∀ x ∈ pre, fetchStops x = false) → fuel ≤ pre.length →
      (utils.WaitForNodePoolLoop scripted cc fuel message
          { s with nodePoolGets := (pre ++ rest).map (asNodePool cc.NodePoolID) }).out
        = Outcome.polling := by
  induction pre with
  | nil =>
    intro s message fuel _ hf
    obtain rfl : fuel = 0 := by simpa using hf
    rfl
  | cons x pre ih =>
    intro s message fuel hpre hf
    cases fuel with
    | zero => rfl
    | succ k =>
      have hk : k ≤ pre.length := by simpa using hf
      have hx : fetchStops x = false := hpre x (List.mem_cons_self _ _)
      have hpre2 : ∀ y ∈ pre, fetchStops y = false :=
        fun y hy => hpre y (List.mem_cons_of_mem _ hy)
      have hget : scripted.NodePoolsGet cc.ProjectID cc.Zone cc.Name cc.NodePoolID
          { s with nodePoolGets := (x :: pre ++ rest).map (asNodePool cc.NodePoolID) }
          = (asNodePool cc.NodePoolID x,
             { s with nodePoolGets := (pre ++ rest).map (asNodePool cc.NodePoolID) }) := rfl
      cases x with
      | error err => simp [fetchStops] at hx
      | ok status =>
        have hs : status ≠ "RUNNING" := by simpa [fetchStops] using hx
        rw [waitForNodePoolLoop_other scripted cc k message _ _
          { Name := cc.NodePoolID, Status := status } hget hs]
        exact ih s status k hpre2 hk

/-- C5: let `rs` be a scripted sequence of fetch results, each an error or a status,
that contains an error or the status "RUNNING", and split it at the first such
fetch `r`, after `pre` and before `post`.  Given fuel for `pre.length + 1`
iterations, `WaitForCluster` and `WaitForNodePool` return: nil exactly when `r` is
the status "RUNNING", otherwise the error of `r` itself; they make exactly
`pre.length + 1` fetches and leave `post` unread.  With less fuel they are still
polling: they have returned nothing before `r`. -/
theorem C5_poller_stops_at_first_terminal_fetch (cc : GKECluster) (s : Script)
    (rs : List (Except Error String)) (h : ∃ r ∈ rs, fetchStops r = true) :
    ∃ pre r post, rs = pre ++ r :: post ∧ (∀ x ∈ pre, fetchStops x = false) ∧
      fetchStops r = true ∧
      (∀ fuel, pre.length < fuel →
        ((utils.WaitForCluster scripted cc fuel { s with clusterGets := rs.map asCluster }).out
            = Outcome.returned (fetchError r) ∧
          ((utils.WaitForCluster scripted cc fuel { s with clusterGets := rs.map asCluster }).out
            = Outcome.returned none ↔ r = Except.ok "RUNNING") ∧
          (utils.WaitForCluster scripted cc fuel { s with clusterGets := rs.map asCluster }).remote
            = { s with clusterGets := post.map asCluster } ∧
          calls (utils.WaitForCluster scripted cc fuel
              { s with clusterGets := rs.map asCluster }).trace
            = List.replicate (pre.length + 1)
                (Call.ClustersGet cc.ProjectID cc.Zone cc.Name)) ∧
        ((utils.WaitForNodePool scripted cc fuel
              { s with nodePoolGets := rs.map (asNodePool cc.NodePoolID) }).out
            = Outcome.returned (fetchError r) ∧
          ((utils.WaitForNodePool scripted cc fuel
              { s with nodePoolGets := rs.map (asNodePool cc.NodePoolID) }).out
            = Outcome.returned none ↔ r = Except.ok "RUNNING") ∧
          (utils.WaitForNodePool scripted cc fuel
              { s with nodePoolGets := rs.map (asNodePool cc.NodePoolID) }).remote
            = { s with nodePoolGets := post.map (asNodePool cc.NodePoolID) } ∧
          calls (utils.WaitForNodePool scripted cc fuel
              { s with nodePoolGets := rs.map (asNodePool cc.NodePoolID) }).trace
            = List.replicate (pre.length + 1)
                (Call.NodePoolsGet cc.ProjectID cc.Zone cc.Name cc.NodePoolID))) ∧
      (∀ fuel, fuel ≤ pre.length →
        (utils.WaitForCluster scripted cc fuel { s with clusterGets := rs.map asCluster }).out
          = Outcome.polling ∧
        (utils.WaitForNodePool scripted cc fuel
            { s with nodePoolGets := rs.map (asNodePool cc.NodePoolID) }).out
          = Outcome.polling) := by
  obtain ⟨pre, r, post, rfl, hpre, hr⟩ := exists_first_stop rs h
  have hiff : ∀ o : Outcome, o = Outcome.returned (fetchError r) →
      (o = Outcome.returned none ↔ r = Except.ok "RUNNING") := by
    intro o ho
    subst ho
    cases r with
    | error err => simp [fetchError]
    | ok status =>
      have hs : status = "RUNNING" := by simpa [fetchStops] using hr
      simp [fetchError, hs]
  refine ⟨pre, r, post, rfl, hpre, hr, fun fuel hf => ⟨?_, ?_⟩, fun fuel hf => ⟨?_, ?_⟩⟩
  · obtain ⟨h1, h2, h3⟩ := waitForClusterLoop_scripted cc r post hr pre s "" fuel hpre hf
    exact ⟨h1, hiff _ h1, h2, h3⟩
  · obtain ⟨h1, h2, h3⟩ := waitForNodePoolLoop_scripted cc r post hr pre s "" fuel hpre hf
    exact ⟨h1, hiff _ h1, h2, h3⟩
  · exact waitForClusterLoop_scripted_early cc (r :: post) pre s "" fuel hpre hf
  · exact waitForNodePoolLoop_scripted_early cc (r :: post) pre s "" fuel hpre hf

/-- C5 on the script "PROVISIONING", error, "RUNNING": the split exists, and the
poll stops at the error. -/
theorem C5_poller_stops_at_first_terminal_fetch_witness :
    ∃ pre r post,
      [Except.ok "PROVISIONING", Except.error ⟨"connection reset"⟩, Except.ok "RUNNING"]
        = pre ++ r :: post ∧
      (∀ x ∈ pre, fetchStops x = false) ∧ fetchStops r = true ∧
      (utils.WaitForCluster scripted specNoName (pre.length + 1)
        { Script.empty with clusterGets :=
            [Except.ok "PROVISIONING", Except.error ⟨"connection reset"⟩,
             Except.ok "RUNNING"].map asCluster }).out = Outcome.returned (fetchError r) ∧
      (utils.WaitForCluster scripted specNoName 3
        { Script.empty with clusterGets :=
            [Except.ok "PROVISIONING", Except.error ⟨"connection reset"⟩,
             Except.ok "RUNNING"].map asCluster }).out
        = Outcome.returned (some ⟨"connection reset"⟩) := by
  obtain ⟨pre, r, post, h1, h2, h3, h4, -⟩ :=
    C5_poller_stops_at_first_terminal_fetch specNoName Script.empty
      [Except.ok "PROVISIONING", Except.error ⟨"connection reset"⟩, Except.ok "RUNNING"]
      ⟨Except.ok "RUNNING", by simp, rfl⟩
  exact ⟨pre, r, post, h1, h2, h3, (h4 _ (Nat.lt_succ_self _)).1.1, by decide⟩

/-- The log lines of an iteration of the loop of `WaitForCluster` that goes on. -/
theorem waitForClusterLoop_other_logs {σ : Type} (svc : Service σ) (cc : GKECluster)
    (fuel : Nat) (message : String) (s s1 : σ) (cluster : gke.Cluster)
    (h : svc.ClustersGet cc.ProjectID cc.Zone cc.Name s = (Except.ok cluster, s1))
    (hr : cluster.Status ≠ "RUNNING") :
    logs (utils.WaitForClusterLoop svc cc (fuel + 1) message s).trace =
      (if cluster.Status ≠ message then
          [("%v cluster %v", [Arg.str cluster.Status, Arg.str cc.Name])]
        else []) ++ logs (utils.WaitForClusterLoop svc cc fuel cluster.Status s1).trace := by
  rw [waitForClusterLoop_other svc cc fuel message s s1 cluster h hr]
  by_cases hm : cluster.Status = message <;> simp [hm, logs]

/-- One iteration of the loop of `waitForCluster` of `main.go` on a running cluster. -/
theorem main_waitForClusterLoop_running {σ : Type} (svc : Service σ) (cc : GKECluster)
    (fuel : Nat) (message : String) (s s1 : σ) (cluster : gke.Cluster)
    (h : svc.ClustersGet cc.ProjectID cc.Zone cc.Name s = (Except.ok cluster, s1))
    (hr : cluster.Status = "RUNNING") :
    main.waitForClusterLoop svc cc (fuel + 1) message s =
      { out := Outcome.returned none, remote := s1,
        trace := [Event.call (Call.ClustersGet cc.ProjectID cc.Zone cc.Name),
                  Event.log "Cluster %v is running" [Arg.str cc.Name]] } := by
  rw [main.waitForClusterLoop, h]
  simp [hr, main.statusRunning]

/-- One iteration of the loop of `waitForCluster` of `main.go` on a cluster that is
not running. -/
theorem main_waitForClusterLoop_other {σ : Type} (svc : Service σ) (cc : GKECluster)
    (fuel : Nat) (message : String) (s s1 : σ) (cluster : gke.Cluster)
    (h : svc.ClustersGet cc.ProjectID cc.Zone cc.Name s = (Except.ok cluster, s1))
    (hr : cluster.Status ≠ "RUNNING") :
    main.waitForClusterLoop svc cc (fuel + 1) message s =
      (main.waitForClusterLoop svc cc fuel cluster.Status s1).after
        (Event.call (Call.ClustersGet cc.ProjectID cc.Zone cc.Name) ::
          ((if cluster.Status ≠ message then
              [Event.log "%v cluster %v......" [Arg.lower cluster.Status, Arg.str cc.Name]]
            else []) ++ [Event.sleep 5])) := by
  rw [main.waitForClusterLoop, h]
  by_cases hm : cluster.Status = message
  · subst hm
    simp [hr, main.statusRunning]
  · simp [hr, hm, main.statusRunning]

/-- The calls of an iteration of the loop of `waitForCluster` of `main.go` that
goes on. -/
theorem main_waitForClusterLoop_other_calls {σ : Type} (svc : Service σ) (cc : GKECluster)
    (fuel : Nat) (message : String) (s s1 : σ) (cluster : gke.Cluster)
    (h : svc.ClustersGet cc.ProjectID cc.Zone cc.Name s = (Except.ok cluster, s1))
    (hr : cluster.Status ≠ "RUNNING") :
    calls (main.waitForClusterLoop svc cc (fuel + 1) message s).trace =
      Call.ClustersGet cc.ProjectID cc.Zone cc.Name ::
        calls (main.waitForClusterLoop svc cc fuel cluster.Status s1).trace := by
  rw [main_waitForClusterLoop_other svc cc fuel message s s1 cluster h hr]
  by_cases hm : cluster.Status = message <;> simp [hm, calls]

/-- The log lines of an iteration of the loop of `waitForCluster` of `main.go` that
goes on. -/
theorem main_waitForClusterLoop_other_logs {σ : Type} (svc : Service σ) (cc : GKECluster)
    (fuel : Nat) (message : String) (s s1 : σ) (cluster : gke.Cluster)
    (h : svc.ClustersGet cc.ProjectID cc.Zone cc.Name s = (Except.ok cluster, s1))
    (hr : cluster.Status ≠ "RUNNING") :
    logs (main.waitForClusterLoop svc cc (fuel + 1) message s).trace =
      (if cluster.Status ≠ message then
          [("%v cluster %v......", [Arg.lower cluster.Status, Arg.str cc.Name])]
        else []) ++ logs (main.waitForClusterLoop svc cc fuel cluster.Status s1).trace := by
  rw [main_waitForClusterLoop_other svc cc fuel message s s1 cluster h hr]
  by_cases hm : cluster.Status = message <;> simp [hm, logs]

/-- The loop of `WaitForCluster`, entered with any `message`, on a script that
reports the statuses `pre`, none of them "RUNNING", and then "RUNNING". -/
theorem waitForClusterLoop_statuses (cc : GKECluster) (pre : List String) :
    ∀ message : String, (∀ x ∈ pre, x ≠ "RUNNING") →
      (utils.WaitForClusterLoop scripted cc (pre.length + 1) message
        (statusScript (pre ++ ["RUNNING"]))).out = Outcome.returned none ∧
      logs (utils.WaitForClusterLoop scripted cc (pre.length + 1) message
        (statusScript (pre ++ ["RUNNING"]))).trace
        = (statusChanges message pre).map
            (fun status => ("%v cluster %v", [Arg.str status, Arg.str cc.Name])) ++
          [("Cluster %v is running", [Arg.str cc.Name])] ∧
      calls (utils.WaitForClusterLoop scripted cc (pre.length + 1) message
        (statusScript (pre ++ ["RUNNING"]))).trace
        = List.replicate (pre.length + 1) (Call.ClustersGet cc.ProjectID cc.Zone cc.Name) ∧
      (∀ fuel, fuel ≤ pre.length → (utils.WaitForClusterLoop scripted cc fuel message
        (statusScript (pre ++ ["RUNNING"]))).out = Outcome.polling) := by
  induction pre with
  | nil =>
    intro message _
    have hget : scripted.ClustersGet cc.ProjectID cc.Zone cc.Name
        (statusScript ([] ++ ["RUNNING"]))
        = (Except.ok (clusterWith "RUNNING" []), statusScript []) := rfl
    rw [List.length_nil, waitForClusterLoop_running scripted cc 0 message _ _ _ hget rfl]
    refine ⟨rfl, rfl, rfl, fun fuel hf => ?_⟩
    obtain rfl : fuel = 0 := by simpa using hf
    rfl
  | cons status pre ih =>
    intro message hpre
    have hr : status ≠ "RUNNING" := hpre status (List.mem_cons_self _ _)
    have hpre2 : ∀ x ∈ pre, x ≠ "RUNNING" := fun x hx => hpre x (List.mem_cons_of_mem _ hx)
    have hget : scripted.ClustersGet cc.ProjectID cc.Zone cc.Name
        (statusScript (status :: pre ++ ["RUNNING"]))
        = (Except.ok (clusterWith status []), statusScript (pre ++ ["RUNNING"])) := rfl
    have hst : (clusterWith status []).Status = status := rfl
    obtain ⟨h1, h2, h3, h4⟩ := ih status hpre2
    refine ⟨?_, ?_, ?_, fun fuel hf => ?_⟩
    · rw [List.length_cons,
        waitForClusterLoop_other scripted cc (pre.length + 1) message _ _ _ hget hr]
      exact h1
    · rw [List.length_cons,
        waitForClusterLoop_other_logs scripted cc (pre.length + 1) message _ _ _ hget hr,
        hst, h2]
      by_cases hm : status = message <;> simp [statusChanges, hm]
    · rw [List.length_cons,
        waitForClusterLoop_other_calls scripted cc (pre.length + 1) message _ _ _ hget hr,
        hst, h3]
      simp [List.replicate_succ]
    · cases fuel with
      | zero => rfl
      | succ k =>
        rw [waitForClusterLoop_other scripted cc k message _ _ _ hget hr]
        exact h4 k (by simpa using hf)

/-- The counterpart of `waitForClusterLoop_statuses` for the loop of the method
`waitForCluster` of `main.go`. -/
theorem main_waitForClusterLoop_statuses (cc : GKECluster) (pre : List String) :
    ∀ message : String, (∀ x ∈ pre, x ≠ "RUNNING") →
      (main.waitForClusterLoop scripted cc (pre.length + 1) message
        (statusScript (pre ++ ["RUNNING"]))).out = Outcome.returned none ∧
      logs (main.waitForClusterLoop scripted cc (pre.length + 1) message
        (statusScript (pre ++ ["RUNNING"]))).trace
        = (statusChanges message pre).map
            (fun status => ("%v cluster %v......", [Arg.lower status, Arg.str cc.Name])) ++
          [("Cluster %v is running", [Arg.str cc.Name])] ∧
      calls (main.waitForClusterLoop scripted cc (pre.length + 1) message
        (statusScript (pre ++ ["RUNNING"]))).trace
        = List.replicate (pre.length + 1) (Call.ClustersGet cc.ProjectID cc.Zone cc.Name) ∧
      (∀ fuel, fuel ≤ pre.length → (main.waitForClusterLoop scripted cc fuel message
        (statusScript (pre ++ ["RUNNING"]))).out = Outcome.polling) := by
  induction pre with
  | nil =>
    intro message _
    have hget : scripted.ClustersGet cc.ProjectID cc.Zone cc.Name
        (statusScript ([] ++ ["RUNNING"]))
        = (Except.ok (clusterWith "RUNNING" []), statusScript []) := rfl
    rw [List.length_nil, main_waitForClusterLoop_running scripted cc 0 message _ _ _ hget rfl]
    refine ⟨rfl, rfl, rfl, fun fuel hf => ?_⟩
    obtain rfl : fuel = 0 := by simpa using hf
    rfl
  | cons status pre ih =>
    intro message hpre
    have hr : status ≠ "RUNNING" := hpre status (List.mem_cons_self _ _)
    have hpre2 : ∀ x ∈ pre, x ≠ "RUNNING" := fun x hx => hpre x (List.mem_cons_of_mem _ hx)
    have hget : scripted.ClustersGet cc.ProjectID cc.Zone cc.Name
        (statusScript (status :: pre ++ ["RUNNING"]))
        = (Except.ok (clusterWith status []), statusScript (pre ++ ["RUNNING"])) := rfl
    have hst : (clusterWith status []).Status = status := rfl
    obtain ⟨h1, h2, h3, h4⟩ := ih status hpre2
    refine ⟨?_, ?_, ?_, fun fuel hf => ?_⟩
    · rw [List.length_cons,
        main_waitForClusterLoop_other scripted cc (pre.length + 1) message _ _ _ hget hr]
      exact h1
    · rw [List.length_cons,
        main_waitForClusterLoop_other_logs scripted cc (pre.length + 1) message _ _ _ hget hr,
        hst, h2]
      by_cases hm : status = message <;> simp [statusChanges, hm]
    · rw [List.length_cons,
        main_waitForClusterLoop_other_calls scripted cc (pre.length + 1) message _ _ _ hget hr,
        hst, h3]
      simp [List.replicate_succ]
    · cases fuel with
      | zero => rfl
      | succ k =>
        rw [main_waitForClusterLoop_other scripted cc k message _ _ _ hget hr]
        exact h4 k (by simpa using hf)

/-- C6, as the claim states it, fails: the poller does not log once per distinct
status.  On the statuses "PROVISIONING", "RECONCILING", "PROVISIONING", "RUNNING",
three of them distinct, `WaitForCluster` logs four lines, "PROVISIONING" twice; on
the statuses "", "RUNNING", two of them distinct, it logs the running line only. -/
theorem C6_logs_not_once_per_distinct_status :
    (distinct ["PROVISIONING", "RECONCILING", "PROVISIONING", "RUNNING"]).length = 3 ∧
    logs (utils.WaitForCluster scripted specNoName 4
        (statusScript ["PROVISIONING", "RECONCILING", "PROVISIONING", "RUNNING"])).trace
      = [("%v cluster %v", [Arg.str "PROVISIONING", Arg.str ""]),
         ("%v cluster %v", [Arg.str "RECONCILING", Arg.str ""]),
         ("%v cluster %v", [Arg.str "PROVISIONING", Arg.str ""]),
         ("Cluster %v is running", [Arg.str ""])] ∧
    (distinct ["", "RUNNING"]).length = 2 ∧
    logs (utils.WaitForCluster scripted specNoName 2 (statusScript ["", "RUNNING"])).trace
      = [("Cluster %v is running", [Arg.str ""])] := by
  decide

/-- C6, amended: on a script that reports the statuses `pre`, none of them
"RUNNING", and then "RUNNING", `WaitForCluster` makes `pre.length + 1` fetches and
returns nil, and has not returned with fuel for fewer fetches; it logs one status
line at each status of `pre` that differs from the status before it (from the
empty string, for the first), in order, and then the running line: once per change
of status, not once per poll.  The method `waitForCluster` of `main.go` does the
same with its own format of the status line.  For `pre` = "PROVISIONING",
"PROVISIONING" that is one status line and the running line, two lines. -/
theorem C6_poller_logs_once_per_change (cc : GKECluster) (pre : List String)
    (h : ∀ x ∈ pre, x ≠ "RUNNING") :
    ((utils.WaitForCluster scripted cc (pre.length + 1)
        (statusScript (pre ++ ["RUNNING"]))).out = Outcome.returned none ∧
      logs (utils.WaitForCluster scripted cc (pre.length + 1)
        (statusScript (pre ++ ["RUNNING"]))).trace
        = (statusChanges "" pre).map
            (fun status => ("%v cluster %v", [Arg.str status, Arg.str cc.Name])) ++
          [("Cluster %v is running", [Arg.str cc.Name])] ∧
      calls (utils.WaitForCluster scripted cc (pre.length + 1)
        (statusScript (pre ++ ["RUNNING"]))).trace
        = List.replicate (pre.length + 1) (Call.ClustersGet cc.ProjectID cc.Zone cc.Name) ∧
      (∀ fuel, fuel ≤ pre.length → (utils.WaitForCluster scripted cc fuel
        (statusScript (pre ++ ["RUNNING"]))).out = Outcome.polling)) ∧
    ((main.waitForCluster scripted cc (pre.length + 1)
        (statusScript (pre ++ ["RUNNING"]))).out = Outcome.returned none ∧
      logs (main.waitForCluster scripted cc (pre.length + 1)
        (statusScript (pre ++ ["RUNNING"]))).trace
        = (statusChanges "" pre).map
            (fun status => ("%v cluster %v......", [Arg.lower status, Arg.str cc.Name])) ++
          [("Cluster %v is running", [Arg.str cc.Name])] ∧
      calls (main.waitForCluster scripted cc (pre.length + 1)
        (statusScript (pre ++ ["RUNNING"]))).trace
        = List.replicate (pre.length + 1) (Call.ClustersGet cc.ProjectID cc.Zone cc.Name) ∧
      (∀ fuel, fuel ≤ pre.length → (main.waitForCluster scripted cc fuel
        (statusScript (pre ++ ["RUNNING"]))).out = Outcome.polling)) :=
  ⟨waitForClusterLoop_statuses cc pre "" h, main_waitForClusterLoop_statuses cc pre "" h⟩

/-- C6 at the script "PROVISIONING", "PROVISIONING", "RUNNING": three fetches, nil,
and exactly two log lines, the status line of "PROVISIONING" and the running line;
with fuel for two fetches the poll has not returned. -/
theorem C6_poller_logs_once_per_change_witness :
    (utils.WaitForCluster scripted specNoName 3
      (statusScript ["PROVISIONING", "PROVISIONING", "RUNNING"])).out
      = Outcome.returned none ∧
    logs (utils.WaitForCluster scripted specNoName 3
      (statusScript ["PROVISIONING", "PROVISIONING", "RUNNING"])).trace
      = [("%v cluster %v", [Arg.str "PROVISIONING", Arg.str ""]),
         ("Cluster %v is running", [Arg.str ""])] ∧
    (calls (utils.WaitForCluster scripted specNoName 3
      (statusScript ["PROVISIONING", "PROVISIONING", "RUNNING"])).trace).length = 3 ∧
    (utils.WaitForCluster scripted specNoName 2
      (statusScript ["PROVISIONING", "PROVISIONING", "RUNNING"])).out = Outcome.polling :=
  ⟨(C6_poller_logs_once_per_change specNoName ["PROVISIONING", "PROVISIONING"]
      (by decide)).1.1,
   (C6_poller_logs_once_per_change specNoName ["PROVISIONING", "PROVISIONING"]
      (by decide)).1.2.1.trans (by decide),
   (congrArg List.length (C6_poller_logs_once_per_change specNoName
      ["PROVISIONING", "PROVISIONING"] (by decide)).1.2.2.1).trans (by decide),
   (C6_poller_logs_once_per_change specNoName ["PROVISIONING", "PROVISIONING"]
      (by decide)).1.2.2.2 2 (by decide)⟩

/-- Every call of the specified poll is its fetch request. -/
theorem specPoll_calls {σ : Type} (fetch : σ → Except Error String × σ) (get : Call)
    (fuel : Nat) : ∀ s : σ, ∀ c ∈ (specPoll fetch get fuel s).2.2, c = get := by
  induction fuel with
  | zero => intro s c hc; simp [specPoll] at hc
  | succ k ih =>
    intro s c hc
    rw [specPoll] at hc
    rcases hf : fetch s with ⟨r, s1⟩
    rw [hf] at hc
    cases r with
    | error err => simpa using hc
    | ok status =>
      by_cases hr : status = "RUNNING"
      · simpa [hr] using hc
      · simp only [hr, if_false, List.mem_cons] at hc
        rcases hc with rfl | hc
        · rfl
        · exact ih s1 c hc

/-- The specified poll never panics. -/
theorem specPoll_not_panicked {σ : Type} (fetch : σ → Except Error String × σ) (get : Call)
    (fuel : Nat) : ∀ (s : σ) (why : Panic),
      (specPoll fetch get fuel s).1 ≠ Outcome.panicked why := by
  induction fuel with
  | zero => intro s why; simp [specPoll]
  | succ k ih =>
    intro s why
    rw [specPoll]
    rcases fetch s with ⟨r, s1⟩
    cases r with
    | error err => simp
    | ok status =>
      by_cases hr : status = "RUNNING"
      · simp [hr]
      · simpa [hr] using ih s1 why

/-- The outcome, remote state and calls of the loop of `WaitForCluster` are those of
the specified poll of the cluster, whatever `message` is. -/
theorem waitForClusterLoop_view {σ : Type} (svc : Service σ) (cc : GKECluster) (fuel : Nat) :
    ∀ (message : String) (s : σ),
      (utils.WaitForClusterLoop svc cc fuel message s).view =
        specPoll (fetchClusterStatus svc cc)
          (Call.ClustersGet cc.ProjectID cc.Zone cc.Name) fuel s := by
  induction fuel with
  | zero => intro message s; simp [utils.WaitForClusterLoop, specPoll, Run.view, calls]
  | succ k ih =>
    intro message s
    rw [specPoll]
    rcases h : svc.ClustersGet cc.ProjectID cc.Zone cc.Name s with ⟨r, s1⟩
    cases r with
    | error err =>
      rw [waitForClusterLoop_error svc cc k message s s1 err h]
      simp [fetchClusterStatus, h, Run.view, calls]
    | ok cluster =>
      by_cases hr : cluster.Status = "RUNNING"
      · rw [waitForClusterLoop_running svc cc k message s s1 cluster h hr]
        simp [fetchClusterStatus, h, hr, Run.view, calls]
      · have hv := ih cluster.Status s1
        simp only [Run.view] at hv
        have hc := waitForClusterLoop_other_calls svc cc k message s s1 cluster h hr
        rw [Run.view, hc, waitForClusterLoop_other svc cc k message s s1 cluster h hr]
        simp [fetchClusterStatus, h, hr, ← hv]

/-- The outcome, remote state and calls of the loop of `WaitForNodePool` are those
of the specified poll of the node pool of the spec, whatever `message` is. -/
theorem waitForNodePoolLoop_view {σ : Type} (svc : Service σ) (cc : GKECluster)
    (fuel : Nat) :
    ∀ (message : String) (s : σ),
      (utils.WaitForNodePoolLoop svc cc fuel message s).view =
        specPoll (fetchNodePoolStatus svc cc)
          (Call.NodePoolsGet cc.ProjectID cc.Zone cc.Name cc.NodePoolID) fuel s := by
  induction fuel with
  | zero => intro message s; simp [utils.WaitForNodePoolLoop, specPoll, Run.view, calls]
  | succ k ih =>
    intro message s
    rw [specPoll]
    rcases h : svc.NodePoolsGet cc.ProjectID cc.Zone cc.Name cc.NodePoolID s with ⟨r, s1⟩
    cases r with
    | error err =>
      rw [waitForNodePoolLoop_error svc cc k message s s1 err h]
      simp [fetchNodePoolStatus, h, Run.view, calls]
    | ok nodepool =>
      by_cases hr : nodepool.Status = "RUNNING"
      · rw [waitForNodePoolLoop_running svc cc k message s s1 nodepool h hr]
        simp [fetchNodePoolStatus, h, hr, Run.view, calls]
      · have hv := ih nodepool.Status s1
        simp only [Run.view] at hv
        have hc := waitForNodePoolLoop_other_calls svc cc k message s s1 nodepool h hr
        rw [Run.view, hc, waitForNodePoolLoop_other svc cc k message s s1 nodepool h hr]
        simp [fetchNodePoolStatus, h, hr, ← hv]

/-- No call of the poll of a step is an update request, and a node-pool call of the
poll is addressed to the node pool of the spec. -/
theorem stepPoll_calls {σ : Type} (svc : Service σ) (cc : GKECluster) (fuel : Nat)
    (st : UpdateStep) (s : σ) :
    ∀ c ∈ (stepPoll svc cc fuel st s).2.2,
      isUpdateCall c = false ∧ ∀ id, poolOf c = some id → id = cc.NodePoolID := by
  intro c hc
  cases st with
  | master =>
    rw [specPoll_calls _ _ fuel s c hc]
    exact ⟨rfl, fun id h => by simp [poolOf] at h⟩
  | nodeVersion =>
    rw [specPoll_calls _ _ fuel s c hc]
    exact ⟨rfl, fun id h => by simpa [poolOf, eq_comm] using h⟩
  | nodeCount =>
    rw [specPoll_calls _ _ fuel s c hc]
    exact ⟨rfl, fun id h => by simp [poolOf] at h⟩

/-- The poll of a step never panics. -/
theorem stepPoll_not_panicked {σ : Type} (svc : Service σ) (cc : GKECluster) (fuel : Nat)
    (st : UpdateStep) (s : σ) (why : Panic) :
    (stepPoll svc cc fuel st s).1 ≠ Outcome.panicked why := by
  cases st <;> exact specPoll_not_panicked _ _ fuel s why

/-- The view of `afterWait`. -/
theorem afterWait_view {σ : Type} (w : Run σ) (next : σ → Run σ) :
    (client.afterWait w next).view =
      match w.out with
      | Outcome.returned none =>
        ((next w.remote).out, (next w.remote).remote,
         calls w.trace ++ calls (next w.remote).trace)
      | other => (other, w.remote, calls w.trace) := by
  unfold client.afterWait Run.view
  rcases w with ⟨o, r, t⟩
  cases o with
  | returned e => cases e <;> simp [calls]
  | panicked why => rfl
  | polling => rfl

/-- The view of a run prefixed with effects. -/
theorem after_view {σ : Type} (pre : List Event) (r : Run σ) :
    (r.after pre).view = (r.view.1, r.view.2.1, calls pre ++ r.view.2.2) := by
  simp [Run.view]

/-- The view of a sub-update followed by `next`, when the wait of the block does
what the poll of the step says and `next` does what the rest of the steps say. -/
theorem stage_view {σ : Type} (svc : Service σ) (cc : GKECluster) (fuel : Nat)
    (st : UpdateStep) (rest : List UpdateStep) (wait : σ → Run σ) (next : σ → Run σ)
    (hwait : ∀ s, (wait s).view = stepPoll svc cc fuel st s)
    (hnext : ∀ s, (next s).view = runSteps svc cc fuel rest s)
    (s : σ) (whenError : Error → σ → Run σ) (whenOk : gke.Operation → List Event)
    (herr : ∀ err s1, (whenError err s1).view = (Outcome.returned (some err), s1, [stepCall cc st]))
    (hok : ∀ op, calls (whenOk op) = [stepCall cc st]) :
    (match stepSend svc cc st s with
      | (Except.error err, s1) => whenError err s1
      | (Except.ok op, s1) =>
        (client.afterWait (wait s1) next).after (whenOk op)).view
      = runSteps svc cc fuel (st :: rest) s := by
  rw [runSteps]
  rcases stepSend svc cc st s with ⟨r, s1⟩
  cases r with
  | error err => simpa using herr err s1
  | ok op =>
    have hw := hwait s1
    simp only [Run.view] at hw
    have hw1 : (wait s1).out = (stepPoll svc cc fuel st s1).1 := congrArg (fun v => v.1) hw
    have hw2 : (wait s1).remote = (stepPoll svc cc fuel st s1).2.1 :=
      congrArg (fun v => v.2.1) hw
    have hw3 : calls (wait s1).trace = (stepPoll svc cc fuel st s1).2.2 :=
      congrArg (fun v => v.2.2) hw
    simp only [after_view, afterWait_view, hok, hw1, hw2, hw3]
    rcases (stepPoll svc cc fuel st s1).1 with e | _ | _
    · cases e with
      | none =>
        have hn := hnext (stepPoll svc cc fuel st s1).2.1
        simp only [Run.view] at hn
        simp [← hn]
      | some err => simp
    · simp
    · simp

/-- The node-count block does what its step says. -/
theorem updateClusterNodeCount_view {σ : Type} (svc : Service σ) (cc : GKECluster)
    (fuel : Nat) (s : σ) :
    (client.UpdateClusterNodeCount svc cc fuel s).view =
      runSteps svc cc fuel (if cc.NodeCount ≠ 0 then [UpdateStep.nodeCount] else []) s := by
  unfold client.UpdateClusterNodeCount
  by_cases h : cc.NodeCount = 0
  · simp [h, runSteps, Run.view, calls]
  · simp only [ne_eq, h, not_false_eq_true, if_true]
    exact stage_view svc cc fuel UpdateStep.nodeCount [] (utils.WaitForCluster svc cc fuel)
      (fun s2 => { out := Outcome.returned none, remote := s2, trace := [] })
      (fun s2 => waitForClusterLoop_view svc cc fuel "" s2)
      (fun s2 => by simp [runSteps, Run.view, calls]) s _ _
      (fun err s1 => by simp [Run.view, calls, stepCall])
      (fun op => by simp [calls, stepCall])

/-- The node-version block and what follows do what their steps say. -/
theorem updateClusterNodeVersion_view {σ : Type} (svc : Service σ) (cc : GKECluster)
    (fuel : Nat) (s : σ) :
    (client.UpdateClusterNodeVersion svc cc fuel s).view =
      runSteps svc cc fuel
        ((if cc.NodeVersion ≠ "" then [UpdateStep.nodeVersion] else []) ++
          (if cc.NodeCount ≠ 0 then [UpdateStep.nodeCount] else [])) s := by
  unfold client.UpdateClusterNodeVersion
  by_cases h : cc.NodeVersion = ""
  · simp [h, updateClusterNodeCount_view]
  · simp only [ne_eq, h, not_false_eq_true, if_true, List.singleton_append]
    exact stage_view svc cc fuel UpdateStep.nodeVersion _ (utils.WaitForNodePool svc cc fuel)
      (client.UpdateClusterNodeCount svc cc fuel)
      (fun s2 => waitForNodePoolLoop_view svc cc fuel "" s2)
      (fun s2 => updateClusterNodeCount_view svc cc fuel s2) s _ _
      (fun err s1 => by simp [Run.view, calls, stepCall])
      (fun op => by simp [calls, stepCall])

/-- The master block and what follows do what the planned steps say. -/
theorem updateClusterMaster_view {σ : Type} (svc : Service σ) (cc : GKECluster)
    (fuel : Nat) (s : σ) :
    (client.UpdateClusterMaster svc cc fuel s).view =
      runSteps svc cc fuel (plannedSteps cc) s := by
  unfold client.UpdateClusterMaster plannedSteps
  by_cases h : cc.MasterVersion = ""
  · simp [h, updateClusterNodeVersion_view]
  · simp only [ne_eq, h, not_false_eq_true, if_true, List.singleton_append]
    exact stage_view svc cc fuel UpdateStep.master _ (utils.WaitForCluster svc cc fuel)
      (client.UpdateClusterNodeVersion svc cc fuel)
      (fun s2 => waitForClusterLoop_view svc cc fuel "" s2)
      (fun s2 => updateClusterNodeVersion_view svc cc fuel s2) s _ _
      (fun err s1 => by simp [Run.view, calls, stepCall])
      (fun op => by simp [calls, stepCall])

/-- The request of a sub-update is an update request. -/
theorem isUpdateCall_stepCall (cc : GKECluster) (st : UpdateStep) :
    isUpdateCall (stepCall cc st) = true := by
  cases st <;> rfl

/-- The poll of a step sends no update request. -/
theorem filter_stepPoll {σ : Type} (svc : Service σ) (cc : GKECluster) (fuel : Nat)
    (st : UpdateStep) (s : σ) :
    (stepPoll svc cc fuel st s).2.2.filter isUpdateCall = [] := by
  rw [List.filter_eq_nil_iff]
  intro c hc
  simp [(stepPoll_calls svc cc fuel st s c hc).1]

/-- The update requests of a run of steps are the requests of the first steps, in
order. -/
theorem runSteps_updates {σ : Type} (svc : Service σ) (cc : GKECluster) (fuel : Nat)
    (steps : List UpdateStep) :
    ∀ s : σ, ∃ later,
      steps.map (stepCall cc) =
        (runSteps svc cc fuel steps s).2.2.filter isUpdateCall ++ later := by
  induction steps with
  | nil => intro s; exact ⟨[], by simp [runSteps]⟩
  | cons st rest ih =>
    intro s
    rw [runSteps]
    rcases stepSend svc cc st s with ⟨r, s1⟩
    cases r with
    | error err =>
      exact ⟨rest.map (stepCall cc), by simp [isUpdateCall_stepCall]⟩
    | ok op =>
      rcases hw : (stepPoll svc cc fuel st s1).1 with e | _ | _
      · cases e with
        | none =>
          obtain ⟨later, hl⟩ := ih (stepPoll svc cc fuel st s1).2.1
          exact ⟨later, by simp [hw, isUpdateCall_stepCall, filter_stepPoll, hl]⟩
        | some err =>
          exact ⟨rest.map (stepCall cc), by simp [hw, isUpdateCall_stepCall, filter_stepPoll]⟩
      · exact ⟨rest.map (stepCall cc), by simp [hw, isUpdateCall_stepCall, filter_stepPoll]⟩
      · exact ⟨rest.map (stepCall cc), by simp [hw, isUpdateCall_stepCall, filter_stepPoll]⟩

/-- Every node-pool call of a run of steps is addressed to the node pool of the
spec. -/
theorem runSteps_pool {σ : Type} (svc : Service σ) (cc : GKECluster) (fuel : Nat)
    (steps : List UpdateStep) :
    ∀ s : σ, ∀ c ∈ (runSteps svc cc fuel steps s).2.2,
      ∀ id, poolOf c = some id → id = cc.NodePoolID := by
  have hstep : ∀ st id, poolOf (stepCall cc st) = some id → id = cc.NodePoolID := by
    intro st id h
    cases st <;> simp [stepCall, poolOf] at h <;> exact h.symm
  induction steps with
  | nil => intro s c hc; simp [runSteps] at hc
  | cons st rest ih =>
    intro s c hc id hid
    rw [runSteps] at hc
    rcases hsend : stepSend svc cc st s with ⟨r, s1⟩
    rw [hsend] at hc
    cases r with
    | error err =>
      simp only [List.mem_singleton] at hc
      subst hc
      exact hstep st id hid
    | ok op =>
      have hpoll := stepPoll_calls svc cc fuel st s1
      rcases hw : (stepPoll svc cc fuel st s1).1 with e | _ | _
      · cases e with
        | none =>
          simp only [hw, List.mem_cons, List.mem_append] at hc
          rcases hc with rfl | hc | hc
          · exact hstep st id hid
          · exact (hpoll c hc).2 id hid
          · exact ih _ c hc id hid
        | some err =>
          simp only [hw, List.mem_cons] at hc
          rcases hc with rfl | hc
          · exact hstep st id hid
          · exact (hpoll c hc).2 id hid
      · simp only [hw, List.mem_cons] at hc
        rcases hc with rfl | hc
        · exact hstep st id hid
        · exact (hpoll c hc).2 id hid
      · simp only [hw, List.mem_cons] at hc
        rcases hc with rfl | hc
        · exact hstep st id hid
        · exact (hpoll c hc).2 id hid

/-- A run of steps never panics. -/
theorem runSteps_not_panicked {σ : Type} (svc : Service σ) (cc : GKECluster) (fuel : Nat)
    (steps : List UpdateStep) :
    ∀ (s : σ) (why : Panic), (runSteps svc cc fuel steps s).1 ≠ Outcome.panicked why := by
  induction steps with
  | nil => intro s why; simp [runSteps]
  | cons st rest ih =>
    intro s why
    rw [runSteps]
    rcases stepSend svc cc st s with ⟨r, s1⟩
    cases r with
    | error err => simp
    | ok op =>
      have hp := stepPoll_not_panicked svc cc fuel st s1
      rcases hw : (stepPoll svc cc fuel st s1).1 with e | w | _
      · cases e with
        | none => simpa [hw] using ih _ why
        | some err => simp [hw]
      · exact absurd hw (hp w)
      · simp [hw]

/-- `UpdateCluster` on a spec that names its node pool is the master block after
one log line. -/
theorem updateCluster_of_pool {σ : Type} (svc : Service σ) (cc : GKECluster) (fuel : Nat)
    (s : σ) (h : cc.NodePoolID ≠ "") :
    (client.UpdateCluster svc cc fuel s).view = runSteps svc cc fuel (plannedSteps cc) s := by
  unfold client.UpdateCluster client.UpdateClusterResolve
  simp only [h, if_false]
  rw [after_view, ← updateClusterMaster_view]
  simp [Run.view, calls]

/-- There are at most three planned steps. -/
theorem plannedSteps_length (cc : GKECluster) : (plannedSteps cc).length ≤ 3 := by
  unfold plannedSteps
  split_ifs <;> simp

/-- A run of steps whose first step is the node-version step, when the control plane
accepts the node-pool update and there is fuel: the update request is followed by a
fetch of the node pool, and if that fetch fails the run ends with its error and no
further call. -/
theorem runSteps_nodeVersion_first {σ : Type} (svc : Service σ) (cc : GKECluster) (k : Nat)
    (rest : List UpdateStep) (s s1 : σ) (op : gke.Operation)
    (hsend : svc.NodePoolsUpdate cc.ProjectID cc.Zone cc.Name cc.NodePoolID
      { NodeVersion := cc.NodeVersion } s = (Except.ok op, s1)) :
    (runSteps svc cc (k + 1) (UpdateStep.nodeVersion :: rest) s).2.2 =
      Call.NodePoolsUpdate cc.ProjectID cc.Zone cc.Name cc.NodePoolID
          { NodeVersion := cc.NodeVersion } ::
        Call.NodePoolsGet cc.ProjectID cc.Zone cc.Name cc.NodePoolID ::
          ((runSteps svc cc (k + 1) (UpdateStep.nodeVersion :: rest) s).2.2).tail.tail ∧
    (∀ e s2, svc.NodePoolsGet cc.ProjectID cc.Zone cc.Name cc.NodePoolID s1
        = (Except.error e, s2) →
      runSteps svc cc (k + 1) (UpdateStep.nodeVersion :: rest) s =
        (Outcome.returned (some e), s2,
         [Call.NodePoolsUpdate cc.ProjectID cc.Zone cc.Name cc.NodePoolID
            { NodeVersion := cc.NodeVersion },
          Call.NodePoolsGet cc.ProjectID cc.Zone cc.Name cc.NodePoolID])) := by
  have hs : stepSend svc cc UpdateStep.nodeVersion s = (Except.ok op, s1) := hsend
  constructor
  · rw [runSteps, hs]
    simp only [stepPoll, stepCall]
    rw [specPoll]
    rcases fetchNodePoolStatus svc cc s1 with ⟨r, s2⟩
    cases r with
    | error err => simp
    | ok status =>
      by_cases hr : status = "RUNNING"
      · simp [hr]
      · simp only [hr, if_false]
        rcases (specPoll (fetchNodePoolStatus svc cc)
          (Call.NodePoolsGet cc.ProjectID cc.Zone cc.Name cc.NodePoolID) k s2).1 with e | _ | _
        · cases e <;> simp
        · simp
        · simp
  · intro e s2 hget
    rw [runSteps, hs]
    simp [stepPoll, stepCall, specPoll, fetchNodePoolStatus, hget]

/-- C8: for a spec with a non-empty NodePoolID, the outcome, the remote state and
the calls of `UpdateCluster` are those of running the planned steps in order: the
steps are master version, node version, node count, each planned exactly when its
field is set (MasterVersion not empty, NodeVersion not empty, NodeCount not 0); a
step sends its update request, ends the operation with the error if the request
fails, then polls as the specification words the poller (the cluster, the node
pool, the cluster) and ends the operation with the result of the poll unless it is
nil.  So the update requests sent are the requests of the first planned steps, in
order, at most three; with no field set nothing is sent and the result is nil; and
when the node-version update is the first step and is accepted, the next call is a
fetch of the node pool, whose failure ends the operation with that error before
any resize. -/
theorem C8_update_steps_in_order {σ : Type} (svc : Service σ) (cc : GKECluster) (fuel : Nat)
    (s : σ) (h : cc.NodePoolID ≠ "") :
    (client.UpdateCluster svc cc fuel s).view = runSteps svc cc fuel (plannedSteps cc) s ∧
    (∃ later, (plannedSteps cc).map (stepCall cc) =
      (calls (client.UpdateCluster svc cc fuel s).trace).filter isUpdateCall ++ later) ∧
    ((calls (client.UpdateCluster svc cc fuel s).trace).filter isUpdateCall).length ≤ 3 ∧
    (cc.MasterVersion = "" → cc.NodeVersion = "" → cc.NodeCount = 0 →
      (client.UpdateCluster svc cc fuel s).out = Outcome.returned none ∧
      (client.UpdateCluster svc cc fuel s).remote = s ∧
      calls (client.UpdateCluster svc cc fuel s).trace = []) ∧
    (cc.MasterVersion = "" → cc.NodeVersion ≠ "" → 0 < fuel →
      ∀ op s1, svc.NodePoolsUpdate cc.ProjectID cc.Zone cc.Name cc.NodePoolID
          { NodeVersion := cc.NodeVersion } s = (Except.ok op, s1) →
        (∃ rest, calls (client.UpdateCluster svc cc fuel s).trace =
          Call.NodePoolsUpdate cc.ProjectID cc.Zone cc.Name cc.NodePoolID
              { NodeVersion := cc.NodeVersion } ::
            Call.NodePoolsGet cc.ProjectID cc.Zone cc.Name cc.NodePoolID :: rest) ∧
        (∀ e s2, svc.NodePoolsGet cc.ProjectID cc.Zone cc.Name cc.NodePoolID s1
            = (Except.error e, s2) →
          (client.UpdateCluster svc cc fuel s).out = Outcome.returned (some e) ∧
          (client.UpdateCluster svc cc fuel s).remote = s2 ∧
          calls (client.UpdateCluster svc cc fuel s).trace =
            [Call.NodePoolsUpdate cc.ProjectID cc.Zone cc.Name cc.NodePoolID
               { NodeVersion := cc.NodeVersion },
             Call.NodePoolsGet cc.ProjectID cc.Zone cc.Name cc.NodePoolID])) := by
  have hv := updateCluster_of_pool svc cc fuel s h
  have hout : (client.UpdateCluster svc cc fuel s).out =
      (runSteps svc cc fuel (plannedSteps cc) s).1 := congrArg (fun v => v.1) hv
  have hrem : (client.UpdateCluster svc cc fuel s).remote =
      (runSteps svc cc fuel (plannedSteps cc) s).2.1 := congrArg (fun v => v.2.1) hv
  have hcalls : calls (client.UpdateCluster svc cc fuel s).trace =
      (runSteps svc cc fuel (plannedSteps cc) s).2.2 := congrArg (fun v => v.2.2) hv
  obtain ⟨later, hl⟩ := runSteps_updates svc cc fuel (plannedSteps cc) s
  refine ⟨hv, ⟨later, by rw [hcalls]; exact hl⟩, ?_, fun hm hn hc => ?_,
    fun hm hn hf op s1 hsend => ?_⟩
  · have hlen := congrArg List.length hl
    rw [List.length_map, List.length_append] at hlen
    have h3 := plannedSteps_length cc
    rw [hcalls]
    omega
  · have hp : plannedSteps cc = [] := by simp [plannedSteps, hm, hn, hc]
    rw [hout, hrem, hcalls, hp]
    simp [runSteps]
  · obtain ⟨k, rfl⟩ := Nat.exists_eq_succ_of_ne_zero (Nat.pos_iff_ne_zero.mp hf)
    have hp : plannedSteps cc = UpdateStep.nodeVersion ::
        (if cc.NodeCount ≠ 0 then [UpdateStep.nodeCount] else []) := by
      simp [plannedSteps, hm, hn]
    obtain ⟨hfirst, hfail⟩ := runSteps_nodeVersion_first svc cc k
      (if cc.NodeCount ≠ 0 then [UpdateStep.nodeCount] else []) s s1 op hsend
    rw [hout, hrem, hcalls, hp]
    refine ⟨⟨_, hfirst⟩, fun e s2 hget => ?_⟩
    rw [hfail e s2 hget]
    exact ⟨rfl, rfl, rfl⟩

/-- C8 on `fullSpec`, which asks for the three updates.  When every request is
accepted and every poll converges: the master update, two fetches of the cluster,
the node-pool update, a fetch of the node pool, the resize, a fetch of the cluster,
and nil.  When the fetch of the node pool fails: its error, and no resize. -/
theorem C8_update_steps_in_order_witness :
    ((client.UpdateCluster scripted fullSpec 2 fullScript).out = Outcome.returned none ∧
      calls (client.UpdateCluster scripted fullSpec 2 fullScript).trace =
        [Call.ClustersUpdate "p" "z" "c" { Update := some { DesiredMasterVersion := "1.9.2" } },
         Call.ClustersGet "p" "z" "c",
         Call.ClustersGet "p" "z" "c",
         Call.NodePoolsUpdate "p" "z" "c" "pool-1" { NodeVersion := "1.9.2" },
         Call.NodePoolsGet "p" "z" "c" "pool-1",
         Call.NodePoolsSetSize "p" "z" "c" "pool-1" { NodeCount := 3 },
         Call.ClustersGet "p" "z" "c"]) ∧
    ((client.UpdateCluster scripted fullSpec 2 failingPoolScript).out =
        Outcome.returned (some ⟨"googleapi: Error 503"⟩) ∧
      calls (client.UpdateCluster scripted fullSpec 2 failingPoolScript).trace =
        [Call.ClustersUpdate "p" "z" "c" { Update := some { DesiredMasterVersion := "1.9.2" } },
         Call.ClustersGet "p" "z" "c",
         Call.ClustersGet "p" "z" "c",
         Call.NodePoolsUpdate "p" "z" "c" "pool-1" { NodeVersion := "1.9.2" },
         Call.NodePoolsGet "p" "z" "c" "pool-1"]) :=
  ⟨⟨(congrArg (fun v => v.1)
        (C8_update_steps_in_order scripted fullSpec 2 fullScript (by decide)).1).trans
        (by decide),
     (congrArg (fun v => v.2.2)
        (C8_update_steps_in_order scripted fullSpec 2 fullScript (by decide)).1).trans
        (by decide)⟩,
   ⟨(congrArg (fun v => v.1)
        (C8_update_steps_in_order scripted fullSpec 2 failingPoolScript (by decide)).1).trans
        (by decide),
     (congrArg (fun v => v.2.2)
        (C8_update_steps_in_order scripted fullSpec 2 failingPoolScript (by decide)).1).trans
        (by decide)⟩⟩

/-- A run of steps that has a first step starts with the request of that step. -/
theorem runSteps_first {σ : Type} (svc : Service σ) (cc : GKECluster) (fuel : Nat)
    (st : UpdateStep) (rest : List UpdateStep) (s : σ) :
    (runSteps svc cc fuel (st :: rest) s).2.2 =
      stepCall cc st :: ((runSteps svc cc fuel (st :: rest) s).2.2).tail := by
  rw [runSteps]
  rcases stepSend svc cc st s with ⟨r, s1⟩
  cases r with
  | error err => rfl
  | ok op =>
    rcases hw : (stepPoll svc cc fuel st s1).1 with e | _ | _
    · cases e <;> simp [hw]
    · simp [hw]
    · simp [hw]

/-- `UpdateCluster` on a spec that names no node pool, when the `Get` fails. -/
theorem updateCluster_of_get_error {σ : Type} (svc : Service σ) (cc : GKECluster)
    (fuel : Nat) (s s1 : σ) (err : Error) (hid : cc.NodePoolID = "")
    (hg : svc.ClustersGet cc.ProjectID cc.Zone cc.Name s = (Except.error err, s1)) :
    (client.UpdateClusterResolve svc cc s).1 = client.Resolved.ended (Outcome.returned (some err)) ∧
    (client.UpdateCluster svc cc fuel s).out = Outcome.returned (some err) ∧
    (client.UpdateCluster svc cc fuel s).remote = s1 ∧
    calls (client.UpdateCluster svc cc fuel s).trace =
      [Call.ClustersGet cc.ProjectID cc.Zone cc.Name] := by
  simp [client.UpdateCluster, client.UpdateClusterResolve, hid, hg, calls]

/-- `UpdateCluster` on a spec that names no node pool, when the fetched cluster has
no node pool. -/
theorem updateCluster_of_no_pool {σ : Type} (svc : Service σ) (cc : GKECluster)
    (fuel : Nat) (s s1 : σ) (cl : gke.Cluster) (hid : cc.NodePoolID = "")
    (hg : svc.ClustersGet cc.ProjectID cc.Zone cc.Name s = (Except.ok cl, s1))
    (hp : cl.NodePools = []) :
    (client.UpdateClusterResolve svc cc s).1 =
      client.Resolved.ended (Outcome.panicked Panic.indexOutOfRange) ∧
    (client.UpdateCluster svc cc fuel s).out = Outcome.panicked Panic.indexOutOfRange ∧
    (client.UpdateCluster svc cc fuel s).remote = s1 ∧
    calls (client.UpdateCluster svc cc fuel s).trace =
      [Call.ClustersGet cc.ProjectID cc.Zone cc.Name] := by
  simp [client.UpdateCluster, client.UpdateClusterResolve, hid, hg, hp, calls]

/-- `UpdateCluster` on a spec that names no node pool, when the first node pool of
the fetched cluster is nil. -/
theorem updateCluster_of_nil_pool {σ : Type} (svc : Service σ) (cc : GKECluster)
    (fuel : Nat) (s s1 : σ) (cl : gke.Cluster) (others : List (Option gke.NodePool))
    (hid : cc.NodePoolID = "")
    (hg : svc.ClustersGet cc.ProjectID cc.Zone cc.Name s = (Except.ok cl, s1))
    (hp : cl.NodePools = none :: others) :
    (client.UpdateClusterResolve svc cc s).1 =
      client.Resolved.ended (Outcome.panicked Panic.nilDereference) ∧
    (client.UpdateCluster svc cc fuel s).out = Outcome.panicked Panic.nilDereference ∧
    (client.UpdateCluster svc cc fuel s).remote = s1 ∧
    calls (client.UpdateCluster svc cc fuel s).trace =
      [Call.ClustersGet cc.ProjectID cc.Zone cc.Name] := by
  simp [client.UpdateCluster, client.UpdateClusterResolve, hid, hg, hp, calls]

/-- `UpdateCluster` on a spec that names no node pool, when the fetched cluster has
a first node pool: the update goes on with NodePoolID set to its name. -/
theorem updateCluster_of_first_pool {σ : Type} (svc : Service σ) (cc : GKECluster)
    (fuel : Nat) (s s1 : σ) (cl : gke.Cluster) (first : gke.NodePool)
    (others : List (Option gke.NodePool)) (hid : cc.NodePoolID = "")
    (hg : svc.ClustersGet cc.ProjectID cc.Zone cc.Name s = (Except.ok cl, s1))
    (hp : cl.NodePools = some first :: others) :
    (client.UpdateClusterResolve svc cc s).1 =
      client.Resolved.goesOn { cc with NodePoolID := first.Name } ∧
    (client.UpdateCluster svc cc fuel s).out =
      (runSteps svc { cc with NodePoolID := first.Name } fuel
        (plannedSteps { cc with NodePoolID := first.Name }) s1).1 ∧
    (client.UpdateCluster svc cc fuel s).remote =
      (runSteps svc { cc with NodePoolID := first.Name } fuel
        (plannedSteps { cc with NodePoolID := first.Name }) s1).2.1 ∧
    calls (client.UpdateCluster svc cc fuel s).trace =
      Call.ClustersGet cc.ProjectID cc.Zone cc.Name ::
        (runSteps svc { cc with NodePoolID := first.Name } fuel
          (plannedSteps { cc with NodePoolID := first.Name }) s1).2.2 := by
  have hv := updateClusterMaster_view svc { cc with NodePoolID := first.Name } fuel s1
  have hv1 : (client.UpdateClusterMaster svc { cc with NodePoolID := first.Name }
      fuel s1).out = (runSteps svc { cc with NodePoolID := first.Name } fuel
        (plannedSteps { cc with NodePoolID := first.Name }) s1).1 :=
    congrArg (fun v => v.1) hv
  have hv2 : (client.UpdateClusterMaster svc { cc with NodePoolID := first.Name }
      fuel s1).remote = (runSteps svc { cc with NodePoolID := first.Name } fuel
        (plannedSteps { cc with NodePoolID := first.Name }) s1).2.1 :=
    congrArg (fun v => v.2.1) hv
  have hv3 : calls (client.UpdateClusterMaster svc { cc with NodePoolID := first.Name }
      fuel s1).trace = (runSteps svc { cc with NodePoolID := first.Name } fuel
        (plannedSteps { cc with NodePoolID := first.Name }) s1).2.2 :=
    congrArg (fun v => v.2.2) hv
  rw [← hv1, ← hv2, ← hv3]
  simp [client.UpdateCluster, client.UpdateClusterResolve, hid, hg, hp, calls]

/-- C7: for a spec with an empty NodePoolID and a non-empty NodeVersion, the first
call of `UpdateCluster` is the `Get` of the cluster, so it precedes every update
request.  If that `Get` fails, `UpdateCluster` returns its error and the `Get` is
the only call made.  Every node-pool call made (the node-pool update, the
node-pool fetches of its poll, the resize) is addressed to the name of the first
node pool of the fetched cluster.  When the cluster has a first node pool, the
outcome and the calls after the `Get` are those of the planned steps of the spec
with NodePoolID set to that name; with no master version asked, the call after
the `Get` is the node-pool update for that name, and when that update is accepted
the next call is a fetch of that node pool, whose failure ends the operation with
that error. -/
theorem C7_update_fetches_first_node_pool {σ : Type} (svc : Service σ) (cc : GKECluster)
    (fuel : Nat) (s : σ) (hid : cc.NodePoolID = "") (hnv : cc.NodeVersion ≠ "") :
    let got := svc.ClustersGet cc.ProjectID cc.Zone cc.Name s
    let run := client.UpdateCluster svc cc fuel s
    (∃ rest, calls run.trace = Call.ClustersGet cc.ProjectID cc.Zone cc.Name :: rest) ∧
    (∀ err, got.1 = Except.error err →
      run.out = Outcome.returned (some err) ∧ run.remote = got.2 ∧
      calls run.trace = [Call.ClustersGet cc.ProjectID cc.Zone cc.Name]) ∧
    (∀ c ∈ calls run.trace, ∀ id, poolOf c = some id →
      ∃ cl first others, got.1 = Except.ok cl ∧ cl.NodePools = some first :: others ∧
        id = first.Name) ∧
    (∀ cl first others, got.1 = Except.ok cl → cl.NodePools = some first :: others →
      run.out = (runSteps svc { cc with NodePoolID := first.Name } fuel
        (plannedSteps { cc with NodePoolID := first.Name }) got.2).1 ∧
      calls run.trace = Call.ClustersGet cc.ProjectID cc.Zone cc.Name ::
        (runSteps svc { cc with NodePoolID := first.Name } fuel
          (plannedSteps { cc with NodePoolID := first.Name }) got.2).2.2 ∧
      UpdateStep.nodeVersion ∈ plannedSteps { cc with NodePoolID := first.Name } ∧
      (cc.MasterVersion = "" → ∃ rest, calls run.trace =
        Call.ClustersGet cc.ProjectID cc.Zone cc.Name ::
          Call.NodePoolsUpdate cc.ProjectID cc.Zone cc.Name first.Name
            { NodeVersion := cc.NodeVersion } :: rest) ∧
      (cc.MasterVersion = "" → 0 < fuel →
        ∀ op s1, svc.NodePoolsUpdate cc.ProjectID cc.Zone cc.Name first.Name
            { NodeVersion := cc.NodeVersion } got.2 = (Except.ok op, s1) →
          (∃ rest, calls run.trace =
            Call.ClustersGet cc.ProjectID cc.Zone cc.Name ::
              Call.NodePoolsUpdate cc.ProjectID cc.Zone cc.Name first.Name
                { NodeVersion := cc.NodeVersion } ::
              Call.NodePoolsGet cc.ProjectID cc.Zone cc.Name first.Name :: rest) ∧
          (∀ e s2, svc.NodePoolsGet cc.ProjectID cc.Zone cc.Name first.Name s1
              = (Except.error e, s2) →
            run.out = Outcome.returned (some e) ∧
            calls run.trace =
              [Call.ClustersGet cc.ProjectID cc.Zone cc.Name,
               Call.NodePoolsUpdate cc.ProjectID cc.Zone cc.Name first.Name
                 { NodeVersion := cc.NodeVersion },
               Call.NodePoolsGet cc.ProjectID cc.Zone cc.Name first.Name]))) := by
  dsimp only
  rcases hg : svc.ClustersGet cc.ProjectID cc.Zone cc.Name s with ⟨r, s1⟩
  cases r with
  | error err =>
    obtain ⟨-, ho, hr, hc⟩ := updateCluster_of_get_error svc cc fuel s s1 err hid hg
    refine ⟨⟨[], hc⟩, fun e he => ?_, fun c hcm id hp => ?_, fun cl f o he => by simp at he⟩
    · simp only [Except.error.injEq] at he
      subst he
      exact ⟨ho, hr, hc⟩
    · rw [hc, List.mem_singleton] at hcm
      subst hcm
      simp [poolOf] at hp
  | ok cl0 =>
    rcases hp : cl0.NodePools with _ | ⟨x, others⟩
    · obtain ⟨-, -, -, hc⟩ := updateCluster_of_no_pool svc cc fuel s s1 cl0 hid hg hp
      refine ⟨⟨[], hc⟩, fun e he => by simp at he, fun c hcm id hpo => ?_,
        fun cl f o he hnp => ?_⟩
      · rw [hc, List.mem_singleton] at hcm
        subst hcm
        simp [poolOf] at hpo
      · simp only [Except.ok.injEq] at he
        subst he
        rw [hp] at hnp
        simp at hnp
    · cases x with
      | none =>
        obtain ⟨-, -, -, hc⟩ :=
          updateCluster_of_nil_pool svc cc fuel s s1 cl0 others hid hg hp
        refine ⟨⟨[], hc⟩, fun e he => by simp at he, fun c hcm id hpo => ?_,
          fun cl f o he hnp => ?_⟩
        · rw [hc, List.mem_singleton] at hcm
          subst hcm
          simp [poolOf] at hpo
        · simp only [Except.ok.injEq] at he
          subst he
          rw [hp] at hnp
          simp at hnp
      | some first =>
        obtain ⟨-, ho, -, hc⟩ :=
          updateCluster_of_first_pool svc cc fuel s s1 cl0 first others hid hg hp
        refine ⟨⟨_, hc⟩, fun e he => by simp at he, fun c hcm id hpo => ?_,
          fun cl f o he hnp => ?_⟩
        · refine ⟨cl0, first, others, rfl, hp, ?_⟩
          rw [hc] at hcm
          rcases List.mem_cons.mp hcm with rfl | hc2
          · simp [poolOf] at hpo
          · exact runSteps_pool svc { cc with NodePoolID := first.Name } fuel _ s1 c hc2 id hpo
        · simp only [Except.ok.injEq] at he
          subst he
          rw [hp] at hnp
          obtain ⟨hf, -⟩ := List.cons.inj hnp
          obtain rfl : first = f := by simpa using hf
          have hpl : cc.MasterVersion = "" →
              plannedSteps { cc with NodePoolID := first.Name } =
                UpdateStep.nodeVersion ::
                  (if cc.NodeCount ≠ 0 then [UpdateStep.nodeCount] else []) := by
            intro hm
            simp [plannedSteps, hm, hnv]
          refine ⟨ho, hc, by simp [plannedSteps, hnv], fun hm => ?_,
            fun hm hfuel op s2 hsend => ?_⟩
          · rw [hc, hpl hm, runSteps_first]
            exact ⟨_, rfl⟩
          · obtain ⟨k, rfl⟩ := Nat.exists_eq_succ_of_ne_zero (Nat.pos_iff_ne_zero.mp hfuel)
            obtain ⟨hfirst, hfail⟩ := runSteps_nodeVersion_first svc
              { cc with NodePoolID := first.Name } k
              (if cc.NodeCount ≠ 0 then [UpdateStep.nodeCount] else []) s1 s2 op hsend
            rw [ho, hc, hpl hm]
            refine ⟨⟨_, congrArg _ hfirst⟩, fun e s3 hget => ?_⟩
            rw [hfail e s3 hget]
            exact ⟨rfl, rfl⟩

/-- C7 on `upgradeSpec`: the cluster is fetched first, the node-pool update goes to
"default-pool", the first node pool of the fetched cluster, and the next call is
the fetch of "default-pool". -/
theorem C7_update_fetches_first_node_pool_witness :
    ∃ rest, calls (client.UpdateCluster scripted upgradeSpec 1 upgradeScript).trace =
      Call.ClustersGet "p" "z" "c" ::
        Call.NodePoolsUpdate "p" "z" "c" "default-pool" { NodeVersion := "1.9.2" } ::
        Call.NodePoolsGet "p" "z" "c" "default-pool" :: rest :=
  ((C7_update_fetches_first_node_pool scripted upgradeSpec 1 upgradeScript rfl
    (by decide)).2.2.2 _ { Name := "default-pool", Status := "RUNNING" }
    [some { Name := "extra", Status := "RUNNING" }] rfl rfl).2.2.2.2 rfl (by decide)
    { HTTPStatusCode := 200 }
    { upgradeScript with clusterGets := [], nodePoolUpdates := [] } rfl |>.1

/-- C11, as the claim states it, fails: a fetched cluster whose node-pool list is not
empty need not resolve NodePoolID.  On `nilPoolScript` the list has one element,
which is nil; the lookup `NodePools[0]` is in bounds, reading its name is a nil
dereference, and `UpdateCluster` panics after the `Get` with no NodePoolID
resolved and no update sent. -/
theorem C11_nil_first_pool_is_not_resolved :
    (scripted.ClustersGet "p" "z" "c" nilPoolScript).1
      = Except.ok (clusterWith "RUNNING" [none]) ∧
    (clusterWith "RUNNING" [none]).NodePools ≠ [] ∧
    (clusterWith "RUNNING" [none]).NodePools[0]? = some none ∧
    (client.UpdateClusterResolve scripted upgradeSpec nilPoolScript).1
      = client.Resolved.ended (Outcome.panicked Panic.nilDereference) ∧
    (client.UpdateCluster scripted upgradeSpec 1 nilPoolScript).out
      = Outcome.panicked Panic.nilDereference ∧
    calls (client.UpdateCluster scripted upgradeSpec 1 nilPoolScript).trace
      = [Call.ClustersGet "p" "z" "c"] :=
  ⟨rfl, by decide, by decide, by decide, by decide, by decide⟩

/-- C11, amended: for a spec with an empty NodePoolID, whatever its update fields,
`UpdateCluster` starts with the `Get` of the cluster, the only call of the block
that resolves the node pool.  When the `Get` succeeds with cluster `cl`, the lookup
`cl.NodePools[0]` is in bounds exactly when the list has at least one element.  If
the first element is a node pool `np`, the block leaves the spec with NodePoolID
set to `np.Name` and the update runs on that spec: every node-pool call is
addressed to `np.Name` and the run does not panic.  If the first element is nil,
reading its name panics with a nil dereference.  If the list is empty, the lookup
has no value and the run panics with an index out of range.  In both panics the run
returns nothing, neither nil nor an error, and the `Get` is the only call made; the
run panics with an index out of range exactly when the list is empty, and with a
nil dereference exactly when the first element is nil. -/
theorem C11_update_first_node_pool_lookup {σ : Type} (svc : Service σ) (cc : GKECluster)
    (fuel : Nat) (s : σ) (hid : cc.NodePoolID = "") :
    let got := svc.ClustersGet cc.ProjectID cc.Zone cc.Name s
    let res := client.UpdateClusterResolve svc cc s
    let run := client.UpdateCluster svc cc fuel s
    (∃ rest, calls run.trace = Call.ClustersGet cc.ProjectID cc.Zone cc.Name :: rest) ∧
    calls res.2.2 = [Call.ClustersGet cc.ProjectID cc.Zone cc.Name] ∧
    (∀ cl, got.1 = Except.ok cl →
      ((∃ x, cl.NodePools[0]? = some x) ↔ 0 < cl.NodePools.length) ∧
      (∀ np, cl.NodePools[0]? = some (some np) →
        res.1 = client.Resolved.goesOn { cc with NodePoolID := np.Name } ∧
        run.out = (runSteps svc { cc with NodePoolID := np.Name } fuel
          (plannedSteps { cc with NodePoolID := np.Name }) got.2).1 ∧
        run.remote = (runSteps svc { cc with NodePoolID := np.Name } fuel
          (plannedSteps { cc with NodePoolID := np.Name }) got.2).2.1 ∧
        calls run.trace = Call.ClustersGet cc.ProjectID cc.Zone cc.Name ::
          (runSteps svc { cc with NodePoolID := np.Name } fuel
            (plannedSteps { cc with NodePoolID := np.Name }) got.2).2.2 ∧
        (∀ c ∈ calls run.trace, ∀ id, poolOf c = some id → id = np.Name) ∧
        (∀ why, run.out ≠ Outcome.panicked why)) ∧
      (cl.NodePools[0]? = some none →
        res.1 = client.Resolved.ended (Outcome.panicked Panic.nilDereference) ∧
        run.out = Outcome.panicked Panic.nilDereference ∧
        (∀ e, run.out ≠ Outcome.returned e) ∧ run.remote = got.2 ∧
        calls run.trace = [Call.ClustersGet cc.ProjectID cc.Zone cc.Name]) ∧
      (cl.NodePools[0]? = none →
        res.1 = client.Resolved.ended (Outcome.panicked Panic.indexOutOfRange) ∧
        run.out = Outcome.panicked Panic.indexOutOfRange ∧
        (∀ e, run.out ≠ Outcome.returned e) ∧ run.remote = got.2 ∧
        calls run.trace = [Call.ClustersGet cc.ProjectID cc.Zone cc.Name]) ∧
      (run.out = Outcome.panicked Panic.indexOutOfRange ↔ cl.NodePools = []) ∧
      (run.out = Outcome.panicked Panic.nilDereference ↔ cl.NodePools[0]? = some none)) := by
  dsimp only
  have hres : calls (client.UpdateClusterResolve svc cc s).2.2 =
      [Call.ClustersGet cc.ProjectID cc.Zone cc.Name] := by
    unfold client.UpdateClusterResolve
    simp only [hid, if_true]
    rcases svc.ClustersGet cc.ProjectID cc.Zone cc.Name s with ⟨r, s1⟩
    cases r with
    | error err => simp [calls]
    | ok cl =>
      rcases hp : cl.NodePools with _ | ⟨x, others⟩
      · simp [hp, calls]
      · cases x <;> simp [hp, calls]
  rcases hg : svc.ClustersGet cc.ProjectID cc.Zone cc.Name s with ⟨r, s1⟩
  cases r with
  | error err =>
    obtain ⟨-, -, -, hc⟩ := updateCluster_of_get_error svc cc fuel s s1 err hid hg
    exact ⟨⟨[], hc⟩, hres, fun cl he => by simp at he⟩
  | ok cl0 =>
    rcases hp : cl0.NodePools with _ | ⟨x, others⟩
    · obtain ⟨h1, ho, hr, hc⟩ := updateCluster_of_no_pool svc cc fuel s s1 cl0 hid hg hp
      refine ⟨⟨[], hc⟩, hres, fun cl he => ?_⟩
      simp only [Except.ok.injEq] at he
      subst he
      rw [hp, ho]
      refine ⟨by simp, fun np hnp => by simp at hnp, fun hn => by simp at hn,
        fun _ => ⟨h1, rfl, fun e => by simp, hr, hc⟩, by simp, by simp⟩
    · cases x with
      | none =>
        obtain ⟨h1, ho, hr, hc⟩ :=
          updateCluster_of_nil_pool svc cc fuel s s1 cl0 others hid hg hp
        refine ⟨⟨[], hc⟩, hres, fun cl he => ?_⟩
        simp only [Except.ok.injEq] at he
        subst he
        rw [hp, ho]
        refine ⟨by simp, fun np hnp => by simp at hnp,
          fun _ => ⟨h1, rfl, fun e => by simp, hr, hc⟩, fun hn => by simp at hn,
          by simp, by simp⟩
      | some first =>
        obtain ⟨h1, ho, hr, hc⟩ :=
          updateCluster_of_first_pool svc cc fuel s s1 cl0 first others hid hg hp
        have hnp : ∀ why, (client.UpdateCluster svc cc fuel s).out ≠ Outcome.panicked why := by
          intro why
          rw [ho]
          exact runSteps_not_panicked svc _ fuel _ s1 why
        refine ⟨⟨_, hc⟩, hres, fun cl he => ?_⟩
        simp only [Except.ok.injEq] at he
        subst he
        rw [hp]
        refine ⟨by simp, fun np hnpe => ?_, fun hn => by simp at hn,
          fun hn => by simp at hn,
          ⟨fun h => absurd h (hnp _), fun h => by simp at h⟩,
          ⟨fun h => absurd h (hnp _), fun h => by simp at h⟩⟩
        have hnf : first = np := by simpa using hnpe
        subst hnf
        refine ⟨h1, ho, hr, hc, fun c hcm id hpo => ?_, hnp⟩
        rw [hc] at hcm
        rcases List.mem_cons.mp hcm with rfl | hc2
        · simp [poolOf] at hpo
        · exact runSteps_pool svc { cc with NodePoolID := first.Name } fuel _ s1 c hc2 id hpo

/-- C11 on `idleSpec`, which asks for no update, and a cluster with no node pool:
the cluster is still fetched, the lookup is out of range and the run panics. -/
theorem C11_update_first_node_pool_lookup_witness :
    (client.UpdateCluster scripted idleSpec 1 noPoolScript).out
      = Outcome.panicked Panic.indexOutOfRange ∧
    calls (client.UpdateCluster scripted idleSpec 1 noPoolScript).trace =
      [Call.ClustersGet "p" "z" "c"] :=
  ⟨((C11_update_first_node_pool_lookup scripted idleSpec 1 noPoolScript rfl).2.2
      (clusterWith "RUNNING" []) rfl).2.2.2.1 rfl |>.2.1,
   ((C11_update_first_node_pool_lookup scripted idleSpec 1 noPoolScript rfl).2.2
      (clusterWith "RUNNING" []) rfl).2.2.2.1 rfl |>.2.2.2.2⟩

end GKE
